import Mathlib

set_option maxRecDepth 8000

/-!
Verification development for the safety-gated deletion core of the light-c
Windows cleanup tool.  The Rust sources under `src-tauri/src` are shallowly
embedded: pure string/path predicates become Lean functions over `String`
(modelled as its list of characters, adequate for the ASCII vocabularies the
predicates use), and filesystem / registry IO is modelled by explicit oracle
records whose fields give the result each IO call would return, so that the
control flow of every embedded function mirrors the Rust control flow.
Machine integers (`u64`) are modelled as `Nat` with explicit wrap-around
`% 2^64` at every arithmetic step where Rust release builds wrap.
-/

/-- Lowercase every character of a string (Rust `to_lowercase`; on the ASCII
vocabularies used by the tool both agree, and non-ASCII characters are left
unchanged by `Char.toLower` just as they are by ASCII lowering). -/
def lowerStr (s : String) : String :=
  String.mk (s.data.map Char.toLower)

/-- `containsSub s pat`: `pat` occurs as a contiguous substring of `s`
(Rust `str::contains`). -/
def containsSub : List Char → List Char → Bool
  | s, pat =>
    pat.isPrefixOf s ||
      match s with
      | [] => false
      | _ :: t => containsSub t pat

/-- Rust `str::contains` on strings. -/
def strContainsB (s pat : String) : Bool :=
  containsSub s.data pat.data

/-- Rust `str::starts_with` on strings. -/
def strStartsWithB (s pat : String) : Bool :=
  pat.data.isPrefixOf s.data

/-- Rust `str::ends_with` on strings. -/
def strEndsWithB (s pat : String) : Bool :=
  pat.data.isSuffixOf s.data

/-- Character at index `i` (Rust `str::chars().nth(i)`). -/
def charNth (s : String) (i : Nat) : Option Char :=
  (s.data.drop i).head?

/-- Prefix of the first `n` characters (Rust slice `&s[..n]`, over the ASCII
names these functions are applied to byte and char indices coincide). -/
def strTake (s : String) (n : Nat) : String :=
  String.mk (s.data.take n)

/-- Rust `trim_start_matches('@')`: drop every leading `'@'`. -/
def dropLeadingAts (s : String) : String :=
  String.mk (s.data.dropWhile (fun c => c = '@'))

/-- Index of the first occurrence of `pat` as a contiguous substring
(Rust `str::find`; char index, which equals Rust's byte index on the ASCII
inputs involved). -/
def firstIdxOfSub : List Char → List Char → Option Nat
  | s, pat =>
    if pat.isPrefixOf s then some 0
    else
      match s with
      | [] => none
      | _ :: t => (firstIdxOfSub t pat).map (· + 1)

/-- The basename of a backslash-delimited path (Rust `Path::file_name`, on
separator-normalised Windows paths without trailing separators or `..`
components); `none` when the candidate component is empty. -/
def fileNameOf (p : String) : Option String :=
  let base := (p.data.reverse.takeWhile (fun c => c ≠ '\\')).reverse
  if base.isEmpty then none else some (String.mk base)

/-- The extension of a path (Rust `Path::extension`): the part of the file
name after its last dot, provided the dot is not the leading character. -/
def extensionOf (p : String) : Option String :=
  match fileNameOf p with
  | none => none
  | some name =>
    let revName := name.data.reverse
    let revExt := revName.takeWhile (fun c => c ≠ '.')
    if revExt.length + 1 < name.data.length then some (String.mk revExt.reverse)
    else none

/-- Rust `str::trim`: drop leading and trailing whitespace. -/
def trimWs (s : String) : String :=
  String.mk (((s.data.dropWhile Char.isWhitespace).reverse.dropWhile
    Char.isWhitespace).reverse)

/-- The accumulator loop behind `splitWs`. -/
def wordsAux : List Char → List Char → List String
  | [], acc => if acc.isEmpty then [] else [String.mk acc.reverse]
  | c :: rest, acc =>
    if Char.isWhitespace c then
      if acc.isEmpty then wordsAux rest []
      else String.mk acc.reverse :: wordsAux rest []
    else wordsAux rest (c :: acc)

/-- Split on whitespace, dropping empty pieces (Rust `split_whitespace`). -/
def splitWs (s : String) : List String :=
  wordsAux s.data []

/-- Rust `trim_matches('"')`: drop every leading and trailing `'"'`. -/
def trimQuotes (s : String) : String :=
  String.mk (((s.data.dropWhile (fun c => c = '"')).reverse.dropWhile
    (fun c => c = '"')).reverse)

/-- 2^64, the wrap-around modulus of Rust `u64` arithmetic in release builds. -/
def U64 : Nat := 18446744073709551616

theorem isPrefixOf_length_le (l₁ l₂ : List Char) (h : l₁.isPrefixOf l₂ = true) :
    l₁.length ≤ l₂.length := by
  have hpre : l₁ <+: l₂ := by
    rwa [List.isPrefixOf_iff_prefix] at h
  exact hpre.length_le

theorem containsSub_length_le (s pat : List Char) (h : containsSub s pat = true) :
    pat.length ≤ s.length := by
  induction s with
  | nil =>
    rw [containsSub] at h
    simp only [Bool.or_eq_true] at h
    rcases h with h | h
    · exact isPrefixOf_length_le _ _ h
    · simp at h
  | cons a t ih =>
    rw [containsSub] at h
    simp only [Bool.or_eq_true] at h
    rcases h with h | h
    · exact isPrefixOf_length_le _ _ h
    · exact Nat.le_trans (ih h) (by simp)

-- ===========================================================================
-- EnhancedDeleteEngine (cleaner/enhanced_delete.rs)
-- ===========================================================================

/-- `DeleteFailureReason` from `enhanced_delete.rs`. -/
inductive DeleteFailureReason where
  | NotFound
  | PermissionDenied
  | FileLocked
  | SystemProtected
  | OutOfScope
  | MarkedForReboot
  | Other (msg : String)
  deriving DecidableEq, Repr

/-- `FileDeleteResult` from `enhanced_delete.rs`. -/
structure FileDeleteResult where
  path : String
  success : Bool
  logical_size : Nat
  physical_size : Nat
  failure_reason : Option DeleteFailureReason
  marked_for_reboot : Bool
  deriving DecidableEq, Repr

/-- `EnhancedDeleteResult` from `enhanced_delete.rs` (the display-only
`summary_message` string, produced by floating-point formatting in
`generate_summary`, is elided; every field the accounting invariants speak
about is kept). -/
structure EnhancedDeleteResult where
  success_count : Nat
  failed_count : Nat
  reboot_pending_count : Nat
  freed_physical_size : Nat
  freed_logical_size : Nat
  skipped_size : Nat
  file_results : List FileDeleteResult
  needs_reboot : Bool
  deriving Repr

/-- `EnhancedDeleteResult::new`. -/
def EnhancedDeleteResult.new : EnhancedDeleteResult :=
  ⟨0, 0, 0, 0, 0, 0, [], false⟩

/-- `SAFE_OWNERSHIP_PATHS` from `enhanced_delete.rs`. -/
def SAFE_OWNERSHIP_PATHS : List String :=
  ["\\temp",
   "\\tmp",
   "\\cache",
   "\\caches",
   "\\appdata\\local\\temp",
   "\\appdata\\local\\microsoft\\windows\\temporary internet files",
   "\\appdata\\local\\microsoft\\windows\\inetcache",
   "\\appdata\\local\\microsoft\\windows\\explorer",
   "\\windows\\temp",
   "\\windows\\prefetch",
   "\\windows\\softwaredistribution\\download",
   "\\$recycle.bin"]

/-- `EnhancedDeleteEngine::is_safe_for_ownership`. -/
def EnhancedDeleteEngine.is_safe_for_ownership (path : String) : Bool :=
  let path_str := lowerStr path
  SAFE_OWNERSHIP_PATHS.any (fun safe_path => strContainsB path_str safe_path)

/-- `EnhancedDeleteEngine::is_system_protected`. -/
def EnhancedDeleteEngine.is_system_protected (path : String) : Bool :=
  let path_str := lowerStr path
  let protected_prefixes :=
    ["c:\\windows\\system32",
     "c:\\windows\\syswow64",
     "c:\\windows\\winsxs",
     "c:\\program files",
     "c:\\program files (x86)"]
  let protected_files :=
    ["ntoskrnl.exe", "hal.dll", "ntdll.dll", "kernel32.dll",
     "bootmgr", "pagefile.sys", "hiberfil.sys", "swapfile.sys"]
  protected_prefixes.any (fun pre => strStartsWithB path_str pre) ||
    (match fileNameOf path with
     | some file_name =>
       let name := lowerStr file_name
       protected_files.any (fun prot => name = prot)
     | none => false)

/-- `EnhancedDeleteEngine::calculate_physical_size` with cluster size `c` and
logical size `L`, both `u64` values in Rust: every arithmetic step wraps
modulo `2^64` exactly as Rust release arithmetic does. -/
def EnhancedDeleteEngine.calculate_physical_size (c L : Nat) : Nat :=
  if L = 0 then 0
  else ((((L + c) % U64 + (U64 - 1)) % U64) / c * c) % U64

theorem calculate_physical_size_closed_form (c L : Nat) (hc : 0 < c)
    (hL : 0 < L) (hU : L + c ≤ U64) :
    EnhancedDeleteEngine.calculate_physical_size c L = (L + c - 1) / c * c := by
  unfold EnhancedDeleteEngine.calculate_physical_size
  rw [if_neg (by omega)]
  have h1 : ((L + c) % U64 + (U64 - 1)) % U64 = L + c - 1 := by
    unfold U64 at *; omega
  rw [h1]
  have h2 : (L + c - 1) / c * c ≤ L + c - 1 := Nat.div_mul_le_self _ _
  exact Nat.mod_eq_of_lt (by unfold U64 at *; omega)

theorem ceil_div_mul_ge (c L : Nat) (hc : 0 < c) (hL : 0 < L) :
    L ≤ (L + c - 1) / c * c := by
  have h1 : L + c - 1 = (L - 1) + c := by omega
  rw [h1, Nat.add_div_right _ hc, Nat.add_mul, Nat.one_mul]
  have hdm := Nat.div_add_mod (L - 1) c
  have hm : (L - 1) % c < c := Nat.mod_lt _ hc
  have hcomm : (L - 1) / c * c = c * ((L - 1) / c) := Nat.mul_comm _ _
  rw [hcomm]
  omega

-- ===========================================================================
-- DeleteEngine (cleaner/delete_engine.rs)
-- ===========================================================================

/-- `PROTECTED_PATH_PREFIXES` from `delete_engine.rs`. -/
def PROTECTED_PATH_PREFIXES : List String :=
  ["c:\\windows\\system32",
   "c:\\windows\\syswow64",
   "c:\\windows\\winsxs",
   "c:\\windows\\servicing",
   "c:\\windows\\assembly",
   "c:\\windows\\boot",
   "c:\\windows\\fonts",
   "c:\\windows\\inf",
   "c:\\windows\\microsoft.net",
   "c:\\windows\\security",
   "c:\\program files",
   "c:\\program files (x86)",
   "c:\\users\\default",
   "c:\\users\\public\\desktop",
   "c:\\programdata\\microsoft\\windows",
   "c:\\programdata\\microsoft\\windows defender",
   "c:\\recovery",
   "c:\\$recycle.bin"]

/-- `PROTECTED_FILES` from `delete_engine.rs`. -/
def PROTECTED_FILES : List String :=
  ["ntoskrnl.exe", "hal.dll", "ntdll.dll", "kernel32.dll", "kernelbase.dll",
   "user32.dll", "gdi32.dll", "advapi32.dll", "shell32.dll", "ole32.dll",
   "bootmgr", "bcd", "ntldr", "boot.ini",
   "pagefile.sys", "hiberfil.sys", "swapfile.sys",
   "desktop.ini", "ntuser.dat", "usrclass.dat",
   "config.data", "accinfo.dat", "msg.db", "micromsg.db",
   "contact.db", "emotion.db", "favorite.db", "publicmsg.db",
   "nt_db", "nt_config"]

/-- `PROTECTED_EXTENSIONS_IN_WINDOWS` from `delete_engine.rs`. -/
def PROTECTED_EXTENSIONS_IN_WINDOWS : List String :=
  ["sys", "dll", "exe", "drv", "ocx", "cpl",
   "msi", "msp", "msu", "cat", "mum", "manifest"]

/-- The user-critical directory suffixes of layer 4 of
`DeleteEngine::is_protected_path`. -/
def USER_CRITICAL_PATHS : List String :=
  ["\\appdata\\local",
   "\\appdata\\roaming",
   "\\documents",
   "\\desktop",
   "\\downloads"]

/-- `DeleteEngine::is_protected_path`: the five protection layers, each an
early return in the Rust source, composed as a boolean disjunction. -/
def DeleteEngine.is_protected_path (path : String) : Bool :=
  let path_str := lowerStr path
  -- layer 1: protected path prefixes
  (PROTECTED_PATH_PREFIXES.any (fun prot => strStartsWithB path_str prot)) ||
  -- layer 2: protected file names
  (match fileNameOf path with
   | some file_name =>
     let name := lowerStr file_name
     PROTECTED_FILES.any (fun prot => name = prot)
   | none => false) ||
  -- layer 3: protected extensions below a \windows\ component
  (strContainsB path_str "\\windows\\" &&
   (match extensionOf path with
    | some ext => PROTECTED_EXTENSIONS_IN_WINDOWS.contains (lowerStr ext)
    | none => false)) ||
  -- layer 4: user-critical roots, matched by suffix only
  (USER_CRITICAL_PATHS.any (fun critical => strEndsWithB path_str critical)) ||
  -- layer 5: drive roots
  (path_str.length ≤ 3 && strEndsWithB path_str "\\")

/-- `DeleteEngine::is_in_allowed_scope`. -/
def DeleteEngine.is_in_allowed_scope (path : String) : Bool :=
  let path_str := lowerStr path
  let allowed_scopes :=
    ["\\temp",
     "\\tmp",
     "\\cache",
     "\\caches",
     "\\temporary",
     "\\appdata\\local\\temp",
     "\\appdata\\local\\microsoft\\windows\\temporary",
     "\\appdata\\local\\microsoft\\windows\\inetcache",
     "\\appdata\\local\\microsoft\\windows\\explorer",
     "\\windows\\temp",
     "\\windows\\prefetch",
     "\\windows\\softwaredistribution\\download",
     "\\$recycle.bin",
     "\\.log",
     "\\.tmp",
     "\\.bak",
     "\\crash",
     "\\dumps"]
  allowed_scopes.any (fun scope => strContainsB path_str scope) ||
    (match extensionOf path with
     | some ext =>
       let allowed_exts := ["tmp", "temp", "log", "bak", "old", "dmp", "etl"]
       allowed_exts.contains (lowerStr ext)
     | none => false)

/-- A filesystem mutation issued by an embedded engine: the calls to
`std::fs::remove_file` / `std::fs::remove_dir_all` and to the reboot-time
removal API appear in the trace in program order. -/
inductive FsEvent where
  | removeFile (p : String)
  | removeDirAll (p : String)
  | markReboot (p : String)
  deriving DecidableEq, Repr

/-- Oracle for the filesystem behaviour seen by `DeleteEngine` on one
candidate path: each field is the result the corresponding IO call would
return. -/
structure FsView where
  pathExists : Bool
  isDir : Bool
  removeOk : Bool
  removeErrPermission : Bool
  removeErrMsg : String
  metadataOk : Bool
  setPermissionsOk : Bool
  retryRemoveOk : Bool
  deriving Repr

/-- `DeleteEngine::delete_file`: remove, and on a permission error clear the
read-only flag and retry once.  Returns the Rust `Result` together with the
trace of remove calls issued. -/
def DeleteEngine.delete_file (v : FsView) (p : String) (size : Nat) :
    Except String Nat × List FsEvent :=
  if v.removeOk then (Except.ok size, [FsEvent.removeFile p])
  else if v.removeErrPermission then
    if v.metadataOk && v.setPermissionsOk then
      if v.retryRemoveOk then (Except.ok size, [FsEvent.removeFile p, FsEvent.removeFile p])
      else (Except.error ("权限不足: " ++ v.removeErrMsg),
            [FsEvent.removeFile p, FsEvent.removeFile p])
    else (Except.error ("权限不足: " ++ v.removeErrMsg), [FsEvent.removeFile p])
  else (Except.error ("删除失败: " ++ v.removeErrMsg), [FsEvent.removeFile p])

/-- `DeleteEngine::delete_directory`. -/
def DeleteEngine.delete_directory (v : FsView) (p : String) (size : Nat) :
    Except String Nat × List FsEvent :=
  if v.removeOk then (Except.ok size, [FsEvent.removeDirAll p])
  else if v.removeErrPermission then
    (Except.error ("权限不足: " ++ v.removeErrMsg), [FsEvent.removeDirAll p])
  else (Except.error ("删除目录失败: " ++ v.removeErrMsg), [FsEvent.removeDirAll p])

/-- `DeleteEngine::delete_single_file`: existence check, then the protection
layers, then (the allowed-scope check from the source is only a log warning
and does not alter control flow) the actual removal. -/
def DeleteEngine.delete_single_file (v : FsView) (path : String) (size : Nat) :
    Except String Nat × List FsEvent :=
  if v.pathExists = false then (Except.error "文件不存在", [])
  else if DeleteEngine.is_protected_path path then
    (Except.error "系统保护路径，禁止删除", [])
  else
    -- `is_in_allowed_scope` is consulted here in the source, but a negative
    -- answer only emits a warning; deletion proceeds regardless.
    if v.isDir then DeleteEngine.delete_directory v path size
    else DeleteEngine.delete_file v path size

/-- Oracle for the filesystem behaviour seen by `EnhancedDeleteEngine` on
one candidate path.  `logicalSize` models `get_file_size`, `lockedErrMsg`
models `get_last_error_message`, and the `Ok` booleans give the outcome of
each removal attempt in the tiered strategy. -/
structure EnhFsView where
  pathExists : Bool
  isDir : Bool
  logicalSize : Nat
  directOk : Bool
  attrsOk : Bool
  directAfterAttrsOk : Bool
  ownershipDirectOk : Bool
  lockedErrMsg : String
  markRebootOk : Bool
  deriving Repr

/-- The direct-removal event of `EnhancedDeleteEngine::direct_delete`. -/
def EnhancedDeleteEngine.directEvent (v : EnhFsView) (p : String) : FsEvent :=
  if v.isDir then FsEvent.removeDirAll p else FsEvent.removeFile p

/-- `EnhancedDeleteEngine::try_delete`: tier 1 direct removal, tier 2 strip
protection attributes and retry, tier 3 take ownership (only inside the
safe-ownership scope) and retry; on exhaustion the error message is the one
`get_last_error_message` produces.  Returns the Rust `Result` and the trace
of removal attempts. -/
def EnhancedDeleteEngine.try_delete (enable_take_ownership : Bool)
    (v : EnhFsView) (p : String) : Option String × List FsEvent :=
  if v.directOk then (none, [EnhancedDeleteEngine.directEvent v p])
  else if v.attrsOk && v.directAfterAttrsOk then
    (none, [EnhancedDeleteEngine.directEvent v p, EnhancedDeleteEngine.directEvent v p])
  else
    let evts₂ := if v.attrsOk then
        [EnhancedDeleteEngine.directEvent v p, EnhancedDeleteEngine.directEvent v p]
      else [EnhancedDeleteEngine.directEvent v p]
    if enable_take_ownership && EnhancedDeleteEngine.is_safe_for_ownership p
        && v.ownershipDirectOk then
      (none, evts₂ ++ [EnhancedDeleteEngine.directEvent v p])
    else
      let evts₃ := if enable_take_ownership && EnhancedDeleteEngine.is_safe_for_ownership p
        then evts₂ ++ [EnhancedDeleteEngine.directEvent v p] else evts₂
      (some v.lockedErrMsg, evts₃)

/-- The error-text lock heuristic of `EnhancedDeleteEngine::delete_single_file`. -/
def EnhancedDeleteEngine.isLockedErr (e : String) : Bool :=
  strContainsB e "正在使用" || strContainsB e "被另一个进程" ||
    strContainsB e "sharing violation" || strContainsB e "access is denied"

/-- `EnhancedDeleteEngine::delete_single_file`: existence check, system
protection check, tiered removal, then failure classification with the
mark-for-reboot escalation (taken only inside the safe-ownership scope).
Returns the per-candidate outcome and the trace of removal attempts. -/
def EnhancedDeleteEngine.delete_single_file (enable_reboot_delete enable_take_ownership : Bool)
    (cluster_size : Nat) (v : EnhFsView) (path : String) :
    FileDeleteResult × List FsEvent :=
  let logical_size := v.logicalSize
  let physical_size := EnhancedDeleteEngine.calculate_physical_size cluster_size logical_size
  if v.pathExists = false then
    (⟨path, false, logical_size, physical_size, some DeleteFailureReason.NotFound, false⟩, [])
  else if EnhancedDeleteEngine.is_system_protected path then
    (⟨path, false, logical_size, physical_size, some DeleteFailureReason.SystemProtected, false⟩, [])
  else
    match EnhancedDeleteEngine.try_delete enable_take_ownership v path with
    | (none, evts) =>
      (⟨path, true, logical_size, physical_size, none, false⟩, evts)
    | (some e, evts) =>
      if EnhancedDeleteEngine.isLockedErr e && enable_reboot_delete then
        if EnhancedDeleteEngine.is_safe_for_ownership path && v.markRebootOk then
          (⟨path, false, logical_size, physical_size,
            some DeleteFailureReason.MarkedForReboot, true⟩, evts ++ [FsEvent.markReboot path])
        else
          let evts' := if EnhancedDeleteEngine.is_safe_for_ownership path
            then evts ++ [FsEvent.markReboot path] else evts
          (⟨path, false, logical_size, physical_size,
            some DeleteFailureReason.FileLocked, false⟩, evts')
      else if strContainsB e "权限" || strContainsB e "permission" then
        (⟨path, false, logical_size, physical_size,
          some DeleteFailureReason.PermissionDenied, false⟩, evts)
      else
        (⟨path, false, logical_size, physical_size,
          some (DeleteFailureReason.Other e), false⟩, evts)

/-- The loop body of `EnhancedDeleteEngine::delete_files`: bucket the
outcome by its `failure_reason` and append it to the detailed list. -/
def EnhancedDeleteEngine.recordOutcome (acc : EnhancedDeleteResult)
    (fr : FileDeleteResult) : EnhancedDeleteResult :=
  let acc' :=
    match fr.failure_reason with
    | none =>
      { acc with
        success_count := acc.success_count + 1,
        freed_logical_size := acc.freed_logical_size + fr.logical_size,
        freed_physical_size := acc.freed_physical_size + fr.physical_size }
    | some DeleteFailureReason.MarkedForReboot =>
      { acc with
        reboot_pending_count := acc.reboot_pending_count + 1,
        needs_reboot := true }
    | some _ =>
      { acc with
        failed_count := acc.failed_count + 1,
        skipped_size := acc.skipped_size + fr.physical_size }
  { acc' with file_results := acc'.file_results ++ [fr] }

/-- The iteration of `EnhancedDeleteEngine::delete_files` over the path
list, with `outcomeOf` the per-candidate result of `delete_single_file`. -/
def EnhancedDeleteEngine.deleteFilesLoop (outcomeOf : String → FileDeleteResult) :
    List String → EnhancedDeleteResult → EnhancedDeleteResult
  | [], acc => acc
  | p :: rest, acc =>
    EnhancedDeleteEngine.deleteFilesLoop outcomeOf rest
      (EnhancedDeleteEngine.recordOutcome acc (outcomeOf p))

/-- `EnhancedDeleteEngine::delete_files` (the final `generate_summary` call
only fills the elided display string). -/
def EnhancedDeleteEngine.delete_files (outcomeOf : String → FileDeleteResult)
    (paths : List String) : EnhancedDeleteResult :=
  EnhancedDeleteEngine.deleteFilesLoop outcomeOf paths EnhancedDeleteResult.new

-- ===========================================================================
-- PermanentDeleteEngine (cleaner/permanent_delete.rs)
-- ===========================================================================

/-- `SafetyCheckResult` from `permanent_delete.rs`. -/
inductive SafetyCheckResult where
  | Safe
  | FoundInRegistry (matched_field matched_value : String)
  | ContainsExecutables (files : List String)
  | InProtectedPath (reason : String)
  deriving DecidableEq, Repr

/-- `LeftoverDeleteResult` from `permanent_delete.rs`. -/
structure LeftoverDeleteResult where
  path : String
  success : Bool
  deleted_files : Nat
  freed_size : Nat
  failure_reason : Option String
  marked_for_reboot : Bool
  needs_manual_review : Bool
  safety_check : SafetyCheckResult
  deriving DecidableEq, Repr

/-- `PermanentDeleteResult` from `permanent_delete.rs` (the wall-clock
`duration_ms` field is elided; real time is not modelled). -/
structure PermanentDeleteResult where
  success_count : Nat
  failed_count : Nat
  manual_review_count : Nat
  reboot_pending_count : Nat
  freed_size : Nat
  details : List LeftoverDeleteResult
  deriving Repr

/-- `PROTECTED_PATHS` from `permanent_delete.rs` (Check 3), with the raw
Rust literal casing preserved. -/
def PERM_PROTECTED_PATHS : List String :=
  ["C:\\Windows",
   "C:\\Windows\\System32",
   "C:\\Windows\\SysWOW64",
   "C:\\Windows\\WinSxS",
   "\\Desktop",
   "\\Documents",
   "\\Downloads",
   "\\Pictures",
   "\\Videos",
   "\\Music",
   "C:\\Program Files",
   "C:\\Program Files (x86)",
   "C:\\ProgramData\\Microsoft",
   "C:\\Boot",
   "C:\\Recovery",
   "C:\\$Recycle.Bin",
   "C:\\System Volume Information"]

/-- `EXECUTABLE_EXTENSIONS` from `permanent_delete.rs` (Check 2). -/
def EXECUTABLE_EXTENSIONS : List String :=
  ["exe", "dll", "sys", "drv", "ocx", "cpl", "scr"]

/-- `PermanentDeleteEngine::check_registry_presence` (Check 1): the first
installed-app cache entry related to the folder name by substring
containment in either direction, provided both strings have length at
least 4.  The cache entries are already lowercased by `load_installed_apps`;
hash-set iteration order is modelled by the list order. -/
def PermanentDeleteEngine.check_registry_presence (installed_apps_cache : List String)
    (folder_name : String) : Option (String × String) :=
  let folder_lower := lowerStr folder_name
  installed_apps_cache.findSome? (fun app =>
    if (strContainsB app folder_lower || strContainsB folder_lower app) &&
        (folder_lower.length ≥ 4 && app.length ≥ 4) then
      some ("已安装程序", app)
    else none)

/-- The loop of `PermanentDeleteEngine::check_protected_path` over
`PROTECTED_PATHS`, with its early return. -/
def PermanentDeleteEngine.findProtected (path_lower : String) :
    List String → Option String
  | [] => none
  | prot :: rest =>
    let protected_lower := lowerStr prot
    if strStartsWithB path_lower protected_lower ||
        strContainsB path_lower protected_lower then
      some ("路径包含受保护目录: " ++ prot)
    else PermanentDeleteEngine.findProtected path_lower rest

/-- `PermanentDeleteEngine::check_protected_path` (Check 3): protected-marker
containment, then the drive-root length test, then the user-profile-root
test on the component count of the original-case path. -/
def PermanentDeleteEngine.check_protected_path (path : String) : Option String :=
  match PermanentDeleteEngine.findProtected (lowerStr path) PERM_PROTECTED_PATHS with
  | some reason => some reason
  | none =>
    if path.length ≤ 3 then some "不允许删除驱动器根目录"
    else if strStartsWithB (lowerStr path) "c:\\users\\" &&
        decide ((path.splitOn "\\").length ≤ 3) then
      some "不允许删除用户根目录"
    else none

/-- `PermanentDeleteEngine::perform_safety_checks`: Check 3 first, then
Check 1, then Check 2; `executablesOf` models the bounded recursive
`scan_executables` walk (depth at most 5, first 10 hits). -/
def PermanentDeleteEngine.perform_safety_checks (installed_apps_cache : List String)
    (executablesOf : String → List String) (path : String) : SafetyCheckResult :=
  let folder_name :=
    match fileNameOf path with
    | some n => lowerStr n
    | none => ""
  match PermanentDeleteEngine.check_protected_path path with
  | some reason => SafetyCheckResult.InProtectedPath reason
  | none =>
    match PermanentDeleteEngine.check_registry_presence installed_apps_cache folder_name with
    | some (field, value) => SafetyCheckResult.FoundInRegistry field value
    | none =>
      let executables := executablesOf path
      if executables.isEmpty = false then
        SafetyCheckResult.ContainsExecutables executables
      else SafetyCheckResult.Safe

/-- Oracle for the filesystem behaviour `PermanentDeleteEngine` sees on one
leftover directory: recursive size and file count, the outcome of the two
`remove_dir_all` attempts, and whether any reboot-time mark succeeded. -/
structure PermFsView where
  dirSize : Nat
  fileCount : Nat
  removeOk : Bool
  removeErrPermission : Bool
  removeAfterAttrsOk : Bool
  errMsg : String
  anyMarkOk : Bool
  deriving Repr

/-- `PermanentDeleteEngine::try_remove_dir_all`: direct removal; on a
permission error clear protection attributes throughout and retry. -/
def PermanentDeleteEngine.try_remove_dir_all (v : PermFsView) : Option String :=
  if v.removeOk then none
  else if v.removeErrPermission then
    if v.removeAfterAttrsOk then none else some v.errMsg
  else some v.errMsg

/-- `PermanentDeleteEngine::delete_single_leftover`: size the directory,
attempt removal, and fall back to the reboot-time queue when enabled. -/
def PermanentDeleteEngine.delete_single_leftover (enable_reboot_fallback : Bool)
    (v : PermFsView) (path : String) : LeftoverDeleteResult :=
  let total_size := v.dirSize
  let file_count := v.fileCount
  match PermanentDeleteEngine.try_remove_dir_all v with
  | none =>
    ⟨path, true, file_count, total_size, none, false, false, SafetyCheckResult.Safe⟩
  | some e =>
    if enable_reboot_fallback && v.anyMarkOk then
      ⟨path, false, 0, 0, some "已标记为重启后删除", true, false, SafetyCheckResult.Safe⟩
    else
      ⟨path, false, 0, 0, some ("删除失败: " ++ e), false, false, SafetyCheckResult.Safe⟩

/-- `SafetyCheckResult::display_message` (abridged faithfully enough for
the accounting claims: the message text is never branched on). -/
def SafetyCheckResult.display_message : SafetyCheckResult → String
  | SafetyCheckResult.Safe => "安全"
  | SafetyCheckResult.FoundInRegistry f v => "注册表中存在匹配: " ++ f ++ " = " ++ v
  | SafetyCheckResult.ContainsExecutables files =>
    "包含可执行文件: " ++ String.intercalate ", " (files.take 3)
  | SafetyCheckResult.InProtectedPath reason => "系统保护路径: " ++ reason

/-- The per-candidate outcome recorded by `PermanentDeleteEngine::delete_leftovers`. -/
def PermanentDeleteEngine.processLeftover (enable_reboot_fallback : Bool)
    (safetyOf : String → SafetyCheckResult) (fsOf : String → PermFsView)
    (path : String) : LeftoverDeleteResult :=
  match safetyOf path with
  | SafetyCheckResult.Safe =>
    PermanentDeleteEngine.delete_single_leftover enable_reboot_fallback (fsOf path) path
  | SafetyCheckResult.ContainsExecutables files =>
    ⟨path, false, 0, 0,
     some (SafetyCheckResult.display_message (SafetyCheckResult.ContainsExecutables files)),
     false, true, SafetyCheckResult.ContainsExecutables files⟩
  | other =>
    ⟨path, false, 0, 0, some (SafetyCheckResult.display_message other),
     false, false, other⟩

/-- The bucket counters of `PermanentDeleteEngine::delete_leftovers` (the
relaxed atomic adds commute, so the parallel fold is modelled by the
sequential one). -/
def PermanentDeleteEngine.recordLeftover (acc : PermanentDeleteResult)
    (r : LeftoverDeleteResult) : PermanentDeleteResult :=
  let acc' :=
    if r.needs_manual_review then
      { acc with manual_review_count := acc.manual_review_count + 1 }
    else if r.success then
      { acc with
        success_count := acc.success_count + 1,
        freed_size := acc.freed_size + r.freed_size }
    else if r.marked_for_reboot then
      { acc with reboot_pending_count := acc.reboot_pending_count + 1 }
    else
      { acc with failed_count := acc.failed_count + 1 }
  { acc' with details := acc'.details ++ [r] }

/-- The iteration of `PermanentDeleteEngine::delete_leftovers`. -/
def PermanentDeleteEngine.deleteLeftoversLoop (enable_reboot_fallback : Bool)
    (safetyOf : String → SafetyCheckResult) (fsOf : String → PermFsView) :
    List String → PermanentDeleteResult → PermanentDeleteResult
  | [], acc => acc
  | p :: rest, acc =>
    PermanentDeleteEngine.deleteLeftoversLoop enable_reboot_fallback safetyOf fsOf rest
      (PermanentDeleteEngine.recordLeftover acc
        (PermanentDeleteEngine.processLeftover enable_reboot_fallback safetyOf fsOf p))

/-- `PermanentDeleteEngine::delete_leftovers`. -/
def PermanentDeleteEngine.delete_leftovers (enable_reboot_fallback : Bool)
    (safetyOf : String → SafetyCheckResult) (fsOf : String → PermFsView)
    (paths : List String) : PermanentDeleteResult :=
  PermanentDeleteEngine.deleteLeftoversLoop enable_reboot_fallback safetyOf fsOf paths
    ⟨0, 0, 0, 0, 0, []⟩

-- ===========================================================================
-- RegistryScanner (scanner/registry.rs)
-- ===========================================================================

/-- `RegistryEntryType` from `scanner/registry.rs`. -/
inductive RegistryEntryType where
  | MuiCache
  | SoftwareKey
  | ApplicationAssociation
  | FileTypeAssociation
  deriving DecidableEq, Repr

/-- `RegistryEntry` from `scanner/registry.rs`. -/
structure RegistryEntry where
  path : String
  name : String
  entry_type : RegistryEntryType
  associated_path : Option String
  issue : String
  risk_level : Nat
  deriving DecidableEq, Repr

/-- `REGISTRY_WHITELIST` from `scanner/registry.rs`. -/
def REGISTRY_WHITELIST : List String :=
  ["microsoft", "windows", "classes", "policies", "explorer", "shell",
   "currentversion",
   "nvidia", "amd", "intel", "realtek", "hardware", "device", "driver",
   "services", "system", "security", "sam", "software\\classes",
   "google", "chrome", "mozilla", "firefox", "adobe", "java", "python",
   "node", "git", "vscode", "visual studio", "jetbrains"]

/-- `RegistryScanner::is_key_whitelisted`. -/
def RegistryScanner.is_key_whitelisted (key_name : String) : Bool :=
  let name_lower := lowerStr key_name
  REGISTRY_WHITELIST.any (fun w => strContainsB name_lower w)

/-- `RegistryScanner::is_installed`: exact membership in the (lowercased)
installed-program set, or some entry longer than 3 characters occurring as
a substring of the key name.  Set iteration is modelled by list order. -/
def RegistryScanner.is_installed (installed_apps : List String)
    (key_name : String) : Bool :=
  let name_lower := lowerStr key_name
  installed_apps.contains name_lower ||
    installed_apps.any (fun app => decide (app.length > 3) && strContainsB name_lower app)

/-- `RegistryScanner::extract_exe_path_from_mui`: strip every leading `@`,
prefer the first case-insensitive `.exe` occurrence, fall back to the first
`.dll` occurrence, and in both branches require length `> 2` and `':'` as
the second character of the candidate prefix. -/
def RegistryScanner.extract_exe_path_from_mui (name : String) : Option String :=
  let nm := dropLeadingAts name
  let low := lowerStr nm
  let exeBranch :=
    match firstIdxOfSub low.data ".exe".data with
    | some exe_pos =>
      let path := strTake nm (exe_pos + 4)
      if decide (path.length > 2) && decide (charNth path 1 = some ':') then some path
      else none
    | none => none
  match exeBranch with
  | some path => some path
  | none =>
    match firstIdxOfSub low.data ".dll".data with
    | some dll_pos =>
      let path := strTake nm (dll_pos + 4)
      if decide (path.length > 2) && decide (charNth path 1 = some ':') then some path
      else none
    | none => none

/-- `RegistryScanner::extract_exe_from_command`: after trimming, a quoted
leading token is returned without its quotes; otherwise the first
whitespace-delimited token, stripped of quote characters, is returned when
it has a drive-letter second character. -/
def RegistryScanner.extract_exe_from_command (command : String) : Option String :=
  let cmd := trimWs command
  let quoted :=
    match cmd.data with
    | '"' :: rest =>
      match firstIdxOfSub rest ['"'] with
      | some end_quote => some (String.mk (rest.take end_quote))
      | none => none
    | _ => none
  match quoted with
  | some path => some path
  | none =>
    match (splitWs cmd).head? with
    | some first =>
      let path := trimQuotes first
      if decide (path.length > 2) && decide (charNth path 1 = some ':') then some path
      else none
    | none => none

/-- The two MUI cache key paths scanned by `RegistryScanner::scan_mui_cache`. -/
def MUI_PATHS : List String :=
  ["Software\\Microsoft\\Windows\\CurrentVersion\\Explorer\\MuiCache",
   "Software\\Classes\\Local Settings\\Software\\Microsoft\\Windows\\Shell\\MuiCache"]

/-- Oracle for the registry and disk state seen by `RegistryScanner`:
`valuesOf` lists the value names of a key (a key that fails to open reads
as the empty list), `subkeysOf` its subkey names, `commandOf` the default
value of an `Applications\
app\shell\open\command` key, and `diskExists`
tells whether a filesystem path exists. -/
structure RegOracle where
  valuesOf : String → List String
  softwareSubkeys : List String
  openOk : String → Bool
  hasSubkeys : String → Bool
  hasValues : String → Bool
  appNames : List String
  commandOf : String → Option String
  diskExists : String → Bool

/-- `RegistryScanner::scan_mui_cache`: for each of the two MUI cache keys,
emit a risk-1 `MuiCache` orphan for every value name whose extracted
executable path does not exist on disk. -/
def RegistryScanner.scan_mui_cache (o : RegOracle) : List RegistryEntry :=
  MUI_PATHS.flatMap (fun path =>
    (o.valuesOf path).filterMap (fun name =>
      match RegistryScanner.extract_exe_path_from_mui name with
      | some exe_path =>
        if o.diskExists exe_path then none
        else some
          ⟨"HKEY_CURRENT_USER\\" ++ path, name, RegistryEntryType.MuiCache,
           some exe_path, "可执行文件不存在: " ++ exe_path, 1⟩
      | none => none))

/-- `RegistryScanner::scan_software_keys`: whitelist the subkey name, skip
installed programs, then require actual content before emitting a risk-3
`SoftwareKey` orphan. -/
def RegistryScanner.scan_software_keys (installed_apps : List String)
    (o : RegOracle) : List RegistryEntry :=
  o.softwareSubkeys.filterMap (fun subkey_name =>
    if RegistryScanner.is_key_whitelisted subkey_name then none
    else if RegistryScanner.is_installed installed_apps subkey_name then none
    else if o.openOk subkey_name &&
        (o.hasSubkeys subkey_name || o.hasValues subkey_name) then
      some ⟨"HKEY_CURRENT_USER\\Software\\" ++ subkey_name, subkey_name,
            RegistryEntryType.SoftwareKey, none,
            "软件 " ++ subkey_name ++ " 可能已卸载，但配置仍保留", 3⟩
    else none)

/-- `RegistryScanner::scan_applications`: whitelist the application subkey
name, read its `shell\
open\
command` default value, extract the executable
token, and emit a risk-3 `ApplicationAssociation` orphan when the
executable does not exist. -/
def RegistryScanner.scan_applications (o : RegOracle) : List RegistryEntry :=
  o.appNames.filterMap (fun app_name =>
    if RegistryScanner.is_key_whitelisted app_name then none
    else
      match o.commandOf app_name with
      | some command =>
        match RegistryScanner.extract_exe_from_command command with
        | some exe_path =>
          if o.diskExists exe_path then none
          else some ⟨"HKEY_CLASSES_ROOT\\Applications\\" ++ app_name, app_name,
                     RegistryEntryType.ApplicationAssociation, some exe_path,
                     "关联的可执行文件不存在: " ++ exe_path, 3⟩
        | none => none
      | none => none)

/-- `RegistryScanner::scan`: MUI cache, then software keys, then
application associations. -/
def RegistryScanner.scan (installed_apps : List String) (o : RegOracle) :
    List RegistryEntry :=
  RegistryScanner.scan_mui_cache o ++
    RegistryScanner.scan_software_keys installed_apps o ++
    RegistryScanner.scan_applications o

-- ===========================================================================
-- delete_registry_entries (commands.rs) over an abstract registry state
-- ===========================================================================

/-- `RegistryDeleteResult` from `commands.rs`. -/
structure RegistryDeleteResult where
  backup_path : String
  deleted_count : Nat
  failed_entries : List String
  errors : List String
  deriving DecidableEq, Repr

/-- The deletion loop of `delete_registry_entries`: thread the abstract
registry state `σ` through `delete_registry_entry` (modelled by `del`,
which returns the new state and `none` on success or the error message). -/
def deleteRegistryLoop {σ : Type} (del : σ → RegistryEntry → σ × Option String) :
    List RegistryEntry → σ → Nat → List String → List String →
    (Nat × List String × List String) × σ
  | [], s, deleted_count, failed_entries, errors =>
    ((deleted_count, failed_entries, errors), s)
  | entry :: rest, s, deleted_count, failed_entries, errors =>
    match del s entry with
    | (s', none) =>
      deleteRegistryLoop del rest s' (deleted_count + 1) failed_entries errors
    | (s', some e) =>
      deleteRegistryLoop del rest s' deleted_count
        (failed_entries ++ [entry.path]) (errors ++ [e])

/-- `delete_registry_entries` from `commands.rs`: the export backup is
written first; only when it succeeds does the deletion loop run.  The
function returns the command result together with the final registry
state. -/
def delete_registry_entries {σ : Type}
    (export_backup : Except String String)
    (del : σ → RegistryEntry → σ × Option String)
    (s₀ : σ) (entries : List RegistryEntry) :
    Except String RegistryDeleteResult × σ :=
  match export_backup with
  | Except.error e => (Except.error ("创建备份失败: " ++ e), s₀)
  | Except.ok backup_path =>
    let ((deleted_count, failed_entries, errors), s) :=
      deleteRegistryLoop del entries s₀ 0 [] []
    (Except.ok ⟨backup_path, deleted_count, failed_entries, errors⟩, s)

-- ===========================================================================
-- LeftoverScanner (scanner/leftovers.rs)
-- ===========================================================================

/-- `LeftoverSource` from `scanner/leftovers.rs`. -/
inductive LeftoverSource where
  | LocalAppData
  | RoamingAppData
  | ProgramData
  deriving DecidableEq, Repr

/-- `LeftoverEntry` from `scanner/leftovers.rs`. -/
structure LeftoverEntry where
  path : String
  size : Nat
  app_name : String
  source : LeftoverSource
  last_modified : Int
  file_count : Nat
  deriving DecidableEq, Repr

/-- `LeftoverScanResult` from `scanner/leftovers.rs` (wall-clock
`scan_duration_ms` elided). -/
structure LeftoverScanResult where
  leftovers : List LeftoverEntry
  total_size : Nat
  deriving Repr

/-- `WHITELIST_FOLDERS` from `scanner/leftovers.rs`. -/
def WHITELIST_FOLDERS : List String :=
  ["microsoft", "windows", "packages", "windowsapps",
   "connecteddevicesplatform", "comms", "d3dscache", "diagnostics",
   "publishers", "temp", "temporary internet files",
   "nvidia", "nvidia corporation", "amd", "intel", "realtek", "asus", "msi",
   "gigabyte", "logitech", "razer", "corsair", "steelseries",
   ".net", "dotnet", "java", "python", "node", "nodejs", "npm", "yarn",
   "rust", "cargo", "go", "golang",
   "vscode", "visual studio", "jetbrains", "git", "github", "docker", "wsl",
   "application data", "local settings", "history", "cookies", "cache",
   "caches", "logs", "crash reports", "crashdumps",
   "google", "chrome", "edge", "firefox", "mozilla", "opera", "brave",
   "vivaldi", "wechat", "tencent", "qq", "discord", "slack", "zoom",
   "teams", "skype", "telegram", "whatsapp", "steam", "epic games",
   "ubisoft", "origin", "ea", "blizzard", "battle.net", "riot games",
   "adobe", "autodesk", "office", "onedrive", "dropbox", "icloud",
   "spotify", "vlc", "potplayer", "7-zip", "winrar", "bandizip"]

/-- `LeftoverScanner::is_whitelisted`: case-insensitive exact match against
the folder whitelist, then substring containment, then the leading-dot
hidden-folder rule. -/
def LeftoverScanner.is_whitelisted (folder_name : String) : Bool :=
  let name_lower := lowerStr folder_name
  WHITELIST_FOLDERS.any (fun w => lowerStr w = name_lower) ||
    WHITELIST_FOLDERS.any (fun w => strContainsB name_lower w) ||
    (match name_lower.data.head? with
     | some c => c = '.'
     | none => false)

/-- `LeftoverScanner::is_installed`: exact membership in the (lowercased)
installed-program set, or an entry longer than 3 characters contained in
the folder name, or the folder name (itself longer than 3 characters)
contained in an entry. -/
def LeftoverScanner.is_installed (installed_apps : List String)
    (folder_name : String) : Bool :=
  let name_lower := lowerStr folder_name
  installed_apps.contains name_lower ||
    installed_apps.any (fun app =>
      (decide (app.length > 3) && strContainsB name_lower app) ||
        (decide (name_lower.length > 3) && strContainsB app name_lower))

/-- The scanner configuration built by `LeftoverScanner::new`:
`min_size_threshold = 1 MiB`, `min_days_old = 30`. -/
structure LeftoverScannerCfg where
  installed_apps : List String
  min_size_threshold : Nat
  min_days_old : Nat

/-- Oracle for the filesystem state seen by `LeftoverScanner::scan`:
`rootExists` and `childrenOf` model `read_dir` over a scan root (a root
that fails to read lists no children), `isDir` the entry type, `ageSecs`
the `duration_since(modified)` computation of `is_old_enough` (`none` when
metadata or the modified time is unavailable), `folderSize` the bounded
recursive `calculate_folder_size` walk, and `lastModified` the Unix
timestamp reported by `get_last_modified`. -/
structure LeftoverFsOracle where
  rootExists : String → Bool
  childrenOf : String → List String
  isDir : String → Bool
  ageSecs : String → Option Nat
  folderSize : String → Nat × Nat
  lastModified : String → Int

/-- `LeftoverScanner::is_old_enough`: strictly more than
`min_days_old * 24 * 60 * 60` seconds since last modification; unknown
modification times conservatively fail. -/
def LeftoverScanner.is_old_enough (cfg : LeftoverScannerCfg)
    (o : LeftoverFsOracle) (path : String) : Bool :=
  match o.ageSecs path with
  | some age => decide (age > cfg.min_days_old * 24 * 60 * 60)
  | none => false

/-- The per-entry body of the `LeftoverScanner::scan` loop: the whitelist,
installed-apps, freshness and size gates, in source order. -/
def LeftoverScanner.scanEntry (cfg : LeftoverScannerCfg) (o : LeftoverFsOracle)
    (source : LeftoverSource) (path : String) : Option LeftoverEntry :=
  if o.isDir path = false then none
  else
    match fileNameOf path with
    | none => none
    | some folder_name =>
      if LeftoverScanner.is_whitelisted folder_name then none
      else if LeftoverScanner.is_installed cfg.installed_apps folder_name then none
      else if LeftoverScanner.is_old_enough cfg o path = false then none
      else
        let sizes := o.folderSize path
        if sizes.1 < cfg.min_size_threshold then none
        else some ⟨path, sizes.1, folder_name, source, o.lastModified path, sizes.2⟩

/-- One scan root of `LeftoverScanner::scan`: only the immediate children
are examined. -/
def LeftoverScanner.scanRoot (cfg : LeftoverScannerCfg) (o : LeftoverFsOracle)
    (base : String) (source : LeftoverSource) : List LeftoverEntry :=
  if o.rootExists base = false then []
  else (o.childrenOf base).filterMap (LeftoverScanner.scanEntry cfg o source)

/-- `LeftoverScanner::scan` over the resolved scan roots: gather the
surviving entries of every root, then sort by size descending. -/
def LeftoverScanner.scan (cfg : LeftoverScannerCfg) (o : LeftoverFsOracle)
    (scan_paths : List (String × LeftoverSource)) : LeftoverScanResult :=
  let leftovers := scan_paths.flatMap
    (fun bs => LeftoverScanner.scanRoot cfg o bs.1 bs.2)
  let total_size := (leftovers.map (fun e => e.size)).sum
  ⟨leftovers.mergeSort (fun a b => decide (b.size ≤ a.size)), total_size⟩

-- ===========================================================================
-- Definitions taken from the specification's wording, for refinement
-- comparisons against the source embeddings above
-- ===========================================================================

/-- The physical-size function as the specification words it: zero maps to
zero, otherwise `ceil(L / c) * c` over unbounded integers. -/
def specPhysicalSize (c L : Nat) : Nat :=
  if L = 0 then 0 else ((L + c - 1) / c) * c

/-- The installed-app index operation as the specification words it: true
iff the lowercased token equals an entry, or token and some entry stand in
a substring relation with both strings at least 4 characters long. -/
def specIsInstalled (installed : List String) (token : String) : Bool :=
  let t := lowerStr token
  installed.any (fun e => t == e) ||
    installed.any (fun e =>
      (strContainsB t e || strContainsB e t) &&
        decide (t.length ≥ 4) && decide (e.length ≥ 4))

/-- The MUI-cache path extraction as the specification words it: strip the
leading `@`s, cut after the first occurrence of `.exe` or `.dll` (whichever
comes first), and require a drive-letter prefix. -/
def specExtractMui (name : String) : Option String :=
  let nm := dropLeadingAts name
  let low := lowerStr nm
  let idx :=
    match firstIdxOfSub low.data ".exe".data, firstIdxOfSub low.data ".dll".data with
    | some i, some j => some (min i j)
    | some i, none => some i
    | none, some j => some j
    | none, none => none
  match idx with
  | some i =>
    let path := strTake nm (i + 4)
    if decide (path.length > 2) && decide (charNth path 1 = some ':') then some path
    else none
  | none => none

-- ===========================================================================
-- Outcome-bucket measures for the session-accounting claims
-- ===========================================================================

/-- The success bucket of `EnhancedDeleteEngine::delete_files`. -/
def isSuccessOutcome (r : FileDeleteResult) : Bool :=
  r.failure_reason.isNone

/-- The reboot-pending bucket of `EnhancedDeleteEngine::delete_files`. -/
def isRebootOutcome (r : FileDeleteResult) : Bool :=
  decide (r.failure_reason = some DeleteFailureReason.MarkedForReboot)

/-- The failed bucket of `EnhancedDeleteEngine::delete_files`. -/
def isFailedOutcome (r : FileDeleteResult) : Bool :=
  match r.failure_reason with
  | none => false
  | some DeleteFailureReason.MarkedForReboot => false
  | some _ => true

/-- The success bucket of `PermanentDeleteEngine::delete_leftovers`. -/
def leftoverSucc (r : LeftoverDeleteResult) : Bool :=
  !r.needs_manual_review && r.success

/-- The manual-review bucket of `PermanentDeleteEngine::delete_leftovers`. -/
def leftoverManual (r : LeftoverDeleteResult) : Bool :=
  r.needs_manual_review

/-- The reboot-pending bucket of `PermanentDeleteEngine::delete_leftovers`. -/
def leftoverReboot (r : LeftoverDeleteResult) : Bool :=
  !r.needs_manual_review && !r.success && r.marked_for_reboot

/-- The failed bucket of `PermanentDeleteEngine::delete_leftovers`. -/
def leftoverFailed (r : LeftoverDeleteResult) : Bool :=
  !r.needs_manual_review && !r.success && !r.marked_for_reboot

theorem outcome_buckets_partition (l : List FileDeleteResult) :
    l.countP isSuccessOutcome + l.countP isFailedOutcome +
      l.countP isRebootOutcome = l.length := by
  induction l with
  | nil => simp
  | cons r t ih =>
    rw [List.countP_cons, List.countP_cons, List.countP_cons]
    rcases hr : r.failure_reason with _ | reason
    · simp [isSuccessOutcome, isFailedOutcome, isRebootOutcome, hr]; omega
    · cases reason <;>
        simp [isSuccessOutcome, isFailedOutcome, isRebootOutcome, hr] <;> omega

theorem leftover_buckets_partition (l : List LeftoverDeleteResult) :
    l.countP leftoverSucc + l.countP leftoverFailed +
      l.countP leftoverManual + l.countP leftoverReboot = l.length := by
  induction l with
  | nil => simp
  | cons r t ih =>
    rw [List.countP_cons, List.countP_cons, List.countP_cons, List.countP_cons]
    rcases r with ⟨p, succ, df, fs, fr, mr, manual, sc⟩
    cases succ <;> cases mr <;> cases manual <;>
      simp [leftoverSucc, leftoverFailed, leftoverManual, leftoverReboot] <;> omega

theorem recordOutcome_fields (acc : EnhancedDeleteResult) (fr : FileDeleteResult) :
    (EnhancedDeleteEngine.recordOutcome acc fr).file_results = acc.file_results ++ [fr] ∧
    (EnhancedDeleteEngine.recordOutcome acc fr).success_count =
      acc.success_count + (if isSuccessOutcome fr then 1 else 0) ∧
    (EnhancedDeleteEngine.recordOutcome acc fr).failed_count =
      acc.failed_count + (if isFailedOutcome fr then 1 else 0) ∧
    (EnhancedDeleteEngine.recordOutcome acc fr).reboot_pending_count =
      acc.reboot_pending_count + (if isRebootOutcome fr then 1 else 0) ∧
    (EnhancedDeleteEngine.recordOutcome acc fr).freed_physical_size =
      acc.freed_physical_size + (if isSuccessOutcome fr then fr.physical_size else 0) ∧
    (EnhancedDeleteEngine.recordOutcome acc fr).freed_logical_size =
      acc.freed_logical_size + (if isSuccessOutcome fr then fr.logical_size else 0) ∧
    (EnhancedDeleteEngine.recordOutcome acc fr).skipped_size =
      acc.skipped_size + (if isFailedOutcome fr then fr.physical_size else 0) := by
  rcases hr : fr.failure_reason with _ | reason
  · simp [EnhancedDeleteEngine.recordOutcome, isSuccessOutcome, isFailedOutcome,
      isRebootOutcome, hr]
  · cases reason <;>
      simp [EnhancedDeleteEngine.recordOutcome, isSuccessOutcome, isFailedOutcome,
        isRebootOutcome, hr]

/-- Sum of the physical sizes of the successful outcomes. -/
def sumPhysSucc (l : List FileDeleteResult) : Nat :=
  ((l.filter isSuccessOutcome).map (fun r => r.physical_size)).sum

/-- Sum of the logical sizes of the successful outcomes. -/
def sumLogSucc (l : List FileDeleteResult) : Nat :=
  ((l.filter isSuccessOutcome).map (fun r => r.logical_size)).sum

/-- Sum of the physical sizes of the hard-failed outcomes. -/
def sumPhysFailed (l : List FileDeleteResult) : Nat :=
  ((l.filter isFailedOutcome).map (fun r => r.physical_size)).sum

theorem sumPhysSucc_cons (r : FileDeleteResult) (l : List FileDeleteResult) :
    sumPhysSucc (r :: l) =
      (if isSuccessOutcome r then r.physical_size else 0) + sumPhysSucc l := by
  by_cases h : isSuccessOutcome r = true <;> simp [sumPhysSucc, List.filter_cons, h]

theorem sumLogSucc_cons (r : FileDeleteResult) (l : List FileDeleteResult) :
    sumLogSucc (r :: l) =
      (if isSuccessOutcome r then r.logical_size else 0) + sumLogSucc l := by
  by_cases h : isSuccessOutcome r = true <;> simp [sumLogSucc, List.filter_cons, h]

theorem sumPhysFailed_cons (r : FileDeleteResult) (l : List FileDeleteResult) :
    sumPhysFailed (r :: l) =
      (if isFailedOutcome r then r.physical_size else 0) + sumPhysFailed l := by
  by_cases h : isFailedOutcome r = true <;> simp [sumPhysFailed, List.filter_cons, h]

theorem deleteFilesLoop_spec (outcomeOf : String → FileDeleteResult)
    (paths : List String) (acc : EnhancedDeleteResult) :
    (EnhancedDeleteEngine.deleteFilesLoop outcomeOf paths acc).file_results =
      acc.file_results ++ paths.map outcomeOf ∧
    (EnhancedDeleteEngine.deleteFilesLoop outcomeOf paths acc).success_count =
      acc.success_count + (paths.map outcomeOf).countP isSuccessOutcome ∧
    (EnhancedDeleteEngine.deleteFilesLoop outcomeOf paths acc).failed_count =
      acc.failed_count + (paths.map outcomeOf).countP isFailedOutcome ∧
    (EnhancedDeleteEngine.deleteFilesLoop outcomeOf paths acc).reboot_pending_count =
      acc.reboot_pending_count + (paths.map outcomeOf).countP isRebootOutcome ∧
    (EnhancedDeleteEngine.deleteFilesLoop outcomeOf paths acc).freed_physical_size =
      acc.freed_physical_size + sumPhysSucc (paths.map outcomeOf) ∧
    (EnhancedDeleteEngine.deleteFilesLoop outcomeOf paths acc).freed_logical_size =
      acc.freed_logical_size + sumLogSucc (paths.map outcomeOf) ∧
    (EnhancedDeleteEngine.deleteFilesLoop outcomeOf paths acc).skipped_size =
      acc.skipped_size + sumPhysFailed (paths.map outcomeOf) := by
  induction paths generalizing acc with
  | nil =>
    simp [EnhancedDeleteEngine.deleteFilesLoop, sumPhysSucc, sumLogSucc, sumPhysFailed]
  | cons p rest ih =>
    have hrec := recordOutcome_fields acc (outcomeOf p)
    have hih := ih (EnhancedDeleteEngine.recordOutcome acc (outcomeOf p))
    rw [EnhancedDeleteEngine.deleteFilesLoop]
    refine ⟨?_, ?_, ?_, ?_, ?_, ?_, ?_⟩
    · rw [hih.1, hrec.1]; simp
    · rw [hih.2.1, hrec.2.1, List.map_cons, List.countP_cons]
      by_cases h : isSuccessOutcome (outcomeOf p) = true <;> simp [h] <;> omega
    · rw [hih.2.2.1, hrec.2.2.1, List.map_cons, List.countP_cons]
      by_cases h : isFailedOutcome (outcomeOf p) = true <;> simp [h] <;> omega
    · rw [hih.2.2.2.1, hrec.2.2.2.1, List.map_cons, List.countP_cons]
      by_cases h : isRebootOutcome (outcomeOf p) = true <;> simp [h] <;> omega
    · rw [hih.2.2.2.2.1, hrec.2.2.2.2.1, List.map_cons, sumPhysSucc_cons]; omega
    · rw [hih.2.2.2.2.2.1, hrec.2.2.2.2.2.1, List.map_cons, sumLogSucc_cons]; omega
    · rw [hih.2.2.2.2.2.2, hrec.2.2.2.2.2.2, List.map_cons, sumPhysFailed_cons]; omega

theorem recordLeftover_fields (acc : PermanentDeleteResult) (r : LeftoverDeleteResult) :
    (PermanentDeleteEngine.recordLeftover acc r).details = acc.details ++ [r] ∧
    (PermanentDeleteEngine.recordLeftover acc r).success_count =
      acc.success_count + (if leftoverSucc r then 1 else 0) ∧
    (PermanentDeleteEngine.recordLeftover acc r).failed_count =
      acc.failed_count + (if leftoverFailed r then 1 else 0) ∧
    (PermanentDeleteEngine.recordLeftover acc r).manual_review_count =
      acc.manual_review_count + (if leftoverManual r then 1 else 0) ∧
    (PermanentDeleteEngine.recordLeftover acc r).reboot_pending_count =
      acc.reboot_pending_count + (if leftoverReboot r then 1 else 0) ∧
    (PermanentDeleteEngine.recordLeftover acc r).freed_size =
      acc.freed_size + (if leftoverSucc r then r.freed_size else 0) := by
  rcases r with ⟨p, succ, df, fs, fr, mr, manual, sc⟩
  cases succ <;> cases mr <;> cases manual <;>
    simp [PermanentDeleteEngine.recordLeftover, leftoverSucc, leftoverFailed,
      leftoverManual, leftoverReboot]

/-- Sum of the freed sizes of the successful per-leftover outcomes. -/
def sumFreedSucc (l : List LeftoverDeleteResult) : Nat :=
  ((l.filter leftoverSucc).map (fun r => r.freed_size)).sum

theorem sumFreedSucc_cons (r : LeftoverDeleteResult) (l : List LeftoverDeleteResult) :
    sumFreedSucc (r :: l) =
      (if leftoverSucc r then r.freed_size else 0) + sumFreedSucc l := by
  by_cases h : leftoverSucc r = true <;> simp [sumFreedSucc, List.filter_cons, h]

theorem deleteLeftoversLoop_spec (erb : Bool)
    (safetyOf : String → SafetyCheckResult) (fsOf : String → PermFsView)
    (paths : List String) (acc : PermanentDeleteResult) :
    (PermanentDeleteEngine.deleteLeftoversLoop erb safetyOf fsOf paths acc).details =
      acc.details ++ paths.map (PermanentDeleteEngine.processLeftover erb safetyOf fsOf) ∧
    (PermanentDeleteEngine.deleteLeftoversLoop erb safetyOf fsOf paths acc).success_count =
      acc.success_count +
        (paths.map (PermanentDeleteEngine.processLeftover erb safetyOf fsOf)).countP leftoverSucc ∧
    (PermanentDeleteEngine.deleteLeftoversLoop erb safetyOf fsOf paths acc).failed_count =
      acc.failed_count +
        (paths.map (PermanentDeleteEngine.processLeftover erb safetyOf fsOf)).countP leftoverFailed ∧
    (PermanentDeleteEngine.deleteLeftoversLoop erb safetyOf fsOf paths acc).manual_review_count =
      acc.manual_review_count +
        (paths.map (PermanentDeleteEngine.processLeftover erb safetyOf fsOf)).countP leftoverManual ∧
    (PermanentDeleteEngine.deleteLeftoversLoop erb safetyOf fsOf paths acc).reboot_pending_count =
      acc.reboot_pending_count +
        (paths.map (PermanentDeleteEngine.processLeftover erb safetyOf fsOf)).countP leftoverReboot ∧
    (PermanentDeleteEngine.deleteLeftoversLoop erb safetyOf fsOf paths acc).freed_size =
      acc.freed_size +
        sumFreedSucc (paths.map (PermanentDeleteEngine.processLeftover erb safetyOf fsOf)) := by
  induction paths generalizing acc with
  | nil =>
    simp [PermanentDeleteEngine.deleteLeftoversLoop, sumFreedSucc]
  | cons p rest ih =>
    have hrec := recordLeftover_fields acc
      (PermanentDeleteEngine.processLeftover erb safetyOf fsOf p)
    have hih := ih (PermanentDeleteEngine.recordLeftover acc
      (PermanentDeleteEngine.processLeftover erb safetyOf fsOf p))
    rw [PermanentDeleteEngine.deleteLeftoversLoop]
    refine ⟨?_, ?_, ?_, ?_, ?_, ?_⟩
    · rw [hih.1, hrec.1]; simp
    · rw [hih.2.1, hrec.2.1, List.map_cons, List.countP_cons]
      by_cases h : leftoverSucc (PermanentDeleteEngine.processLeftover erb safetyOf fsOf p)
          = true <;> simp [h] <;> omega
    · rw [hih.2.2.1, hrec.2.2.1, List.map_cons, List.countP_cons]
      by_cases h : leftoverFailed (PermanentDeleteEngine.processLeftover erb safetyOf fsOf p)
          = true <;> simp [h] <;> omega
    · rw [hih.2.2.2.1, hrec.2.2.2.1, List.map_cons, List.countP_cons]
      by_cases h : leftoverManual (PermanentDeleteEngine.processLeftover erb safetyOf fsOf p)
          = true <;> simp [h] <;> omega
    · rw [hih.2.2.2.2.1, hrec.2.2.2.2.1, List.map_cons, List.countP_cons]
      by_cases h : leftoverReboot (PermanentDeleteEngine.processLeftover erb safetyOf fsOf p)
          = true <;> simp [h] <;> omega
    · rw [hih.2.2.2.2.2, hrec.2.2.2.2.2, List.map_cons, sumFreedSucc_cons]; omega

theorem strContainsB_length_le (s pat : String) (h : strContainsB s pat = true) :
    pat.length ≤ s.length := by
  exact containsSub_length_le s.data pat.data h

theorem inst_pointwise (nl e : String) :
    ((decide (e.length > 3) && strContainsB nl e) ||
      (decide (nl.length > 3) && strContainsB e nl)) =
    ((strContainsB nl e || strContainsB e nl) &&
      decide (nl.length ≥ 4) && decide (e.length ≥ 4)) := by
  rw [Bool.eq_iff_iff]
  cases hc1 : strContainsB nl e <;> cases hc2 : strContainsB e nl
  · simp [hc1, hc2]
  · have hle := strContainsB_length_le e nl hc2
    simp only [hc1, hc2, Bool.and_false, Bool.and_true, Bool.false_or,
      Bool.or_true, Bool.true_and, Bool.false_and, Bool.and_eq_true,
      decide_eq_true_eq, true_and]
    constructor
    · intro h; exact ⟨by omega, by omega⟩
    · intro h; omega
  · have hle := strContainsB_length_le nl e hc1
    simp only [hc1, hc2, Bool.and_false, Bool.and_true, Bool.or_false,
      Bool.true_or, Bool.true_and, Bool.false_and, Bool.and_eq_true,
      decide_eq_true_eq, true_and]
    constructor
    · intro h; exact ⟨by omega, by omega⟩
    · intro h; omega
  · have hle1 := strContainsB_length_le nl e hc1
    have hle2 := strContainsB_length_le e nl hc2
    simp only [hc1, hc2, Bool.and_true, Bool.true_or, Bool.true_and,
      Bool.or_eq_true, Bool.and_eq_true, decide_eq_true_eq]
    constructor
    · intro h; exact ⟨by omega, by omega⟩
    · intro h; omega

theorem findProtected_isSome (pl : String) (l : List String) (x : String)
    (hx : x ∈ l)
    (hhit : (strStartsWithB pl (lowerStr x) || strContainsB pl (lowerStr x)) = true) :
    (PermanentDeleteEngine.findProtected pl l).isSome = true := by
  induction l with
  | nil => simp at hx
  | cons a t ih =>
    rw [PermanentDeleteEngine.findProtected]
    by_cases hcond : (strStartsWithB pl (lowerStr a) || strContainsB pl (lowerStr a)) = true
    · simp [hcond]
    · rcases List.mem_cons.mp hx with rfl | hx'
      · exact absurd hhit hcond
      · simp only [Bool.not_eq_true] at hcond
        simp [hcond]
        exact ih hx'

-- ===========================================================================
-- Claim theorems
-- ===========================================================================

/-- Claim C2, counterexample: at the largest `u64` logical size and cluster
512 (the same failure occurs at 4096 and 65536), the engine's wrapped
arithmetic returns 0, which differs from the specified `ceil(L/c)*c` value
and is smaller than `L`, refuting `physical(L, c) >= L` as universally
stated. -/
theorem c2_counterexample :
    EnhancedDeleteEngine.calculate_physical_size 512 (U64 - 1) = 0 ∧
    specPhysicalSize 512 (U64 - 1) ≠ 0 ∧
    ¬(U64 - 1 ≤ EnhancedDeleteEngine.calculate_physical_size 512 (U64 - 1)) := by
  refine ⟨by decide, by decide, ?_⟩
  intro h
  rw [show EnhancedDeleteEngine.calculate_physical_size 512 (U64 - 1) = 0 from by decide] at h
  exact absurd h (by decide)

/-- Claim C2, amended: for cluster sizes `c ∈ {512, 4096, 65536}` and any
logical size `L` with `L + c ≤ 2^64` (so that the `u64` expression
`L + c - 1` does not wrap), the engine returns 0 at `L = 0` and otherwise
`ceil(L/c)*c`; consequently the result is at least `L`, is a multiple of
`c`, equals `c` at `L = c` and `2c` at `L = c + 1`. -/
theorem c2_amended (c L : Nat) (hc : c = 512 ∨ c = 4096 ∨ c = 65536)
    (hU : L + c ≤ U64) :
    EnhancedDeleteEngine.calculate_physical_size c 0 = 0 ∧
    (0 < L → EnhancedDeleteEngine.calculate_physical_size c L = (L + c - 1) / c * c) ∧
    (0 < L → L ≤ EnhancedDeleteEngine.calculate_physical_size c L) ∧
    (0 < L → c ∣ EnhancedDeleteEngine.calculate_physical_size c L) ∧
    EnhancedDeleteEngine.calculate_physical_size c c = c ∧
    EnhancedDeleteEngine.calculate_physical_size c (c + 1) = 2 * c := by
  have hcpos : 0 < c := by rcases hc with rfl | rfl | rfl <;> norm_num
  have hcsmall : c + c + 1 ≤ U64 := by
    rcases hc with rfl | rfl | rfl <;> norm_num [U64]
  refine ⟨?_, ?_, ?_, ?_, ?_, ?_⟩
  · simp [EnhancedDeleteEngine.calculate_physical_size]
  · intro hL
    exact calculate_physical_size_closed_form c L hcpos hL hU
  · intro hL
    rw [calculate_physical_size_closed_form c L hcpos hL hU]
    exact ceil_div_mul_ge c L hcpos hL
  · intro hL
    rw [calculate_physical_size_closed_form c L hcpos hL hU]
    exact dvd_mul_left c ((L + c - 1) / c)
  · rw [calculate_physical_size_closed_form c c hcpos hcpos (by omega)]
    have hdiv : (c + c - 1) / c = 1 :=
      Nat.div_eq_of_lt_le (by omega) (by omega)
    rw [hdiv, Nat.one_mul]
  · rw [calculate_physical_size_closed_form c (c + 1) hcpos (by omega) (by omega)]
    have harg : c + 1 + c - 1 = 2 * c := by omega
    rw [harg, Nat.mul_div_cancel _ hcpos]

/-- Claim C2, witness: the amended theorem applied at `c = 4096`, `L = 3`. -/
theorem c2_amended_witness :
    EnhancedDeleteEngine.calculate_physical_size 4096 3 = 4096 ∧
    3 ≤ EnhancedDeleteEngine.calculate_physical_size 4096 3 ∧
    EnhancedDeleteEngine.calculate_physical_size 4096 4096 = 4096 ∧
    EnhancedDeleteEngine.calculate_physical_size 4096 4097 = 2 * 4096 := by
  have h := c2_amended 4096 3 (Or.inr (Or.inl rfl)) (by norm_num [U64])
  refine ⟨?_, h.2.2.1 (by norm_num), h.2.2.2.2.1, h.2.2.2.2.2⟩
  rw [h.2.1 (by norm_num)]

/-- Claim C3: when the export-backup write of `delete_registry_entries`
fails, the command returns an error and the abstract registry state is
returned unchanged — the deletion loop never runs, for every deletion
oracle, initial state and entry list. -/
theorem c3_backup_failure_aborts {σ : Type}
    (del : σ → RegistryEntry → σ × Option String) (s₀ : σ)
    (entries : List RegistryEntry) (e : String) :
    delete_registry_entries (Except.error e) del s₀ entries =
      (Except.error ("创建备份失败: " ++ e), s₀) := rfl

/-- Claim C1, counterexample: the path `c:\users\alice\mystuff\notes.txt`
fails the allowed-scope layer (no scope substring, extension `txt` not in
the allowed list) and passes the protection layers, yet
`DeleteEngine::delete_single_file` issues the filesystem remove call on it
and succeeds; no `OutOfScope` outcome arises. -/
theorem c1_counterexample :
    DeleteEngine.is_in_allowed_scope "c:\\users\\alice\\mystuff\\notes.txt" = false ∧
    DeleteEngine.is_protected_path "c:\\users\\alice\\mystuff\\notes.txt" = false ∧
    DeleteEngine.delete_single_file ⟨true, false, true, false, "", true, true, true⟩
        "c:\\users\\alice\\mystuff\\notes.txt" 7 =
      (Except.ok 7, [FsEvent.removeFile "c:\\users\\alice\\mystuff\\notes.txt"]) := by
  refine ⟨by decide, by decide, rfl⟩

/-- Claim C1, amended: a candidate rejected by the protection layers is not
attempted — `DeleteEngine::delete_single_file` returns an error with an
empty removal trace, and `EnhancedDeleteEngine::delete_single_file` yields
a `SystemProtected` outcome with an empty removal trace.  The allowed-scope
layer, by contrast, is advisory only: its failure does not block deletion
(claim-counterexample above) and no outcome ever carries `OutOfScope`. -/
theorem c1_amended :
    (∀ (v : FsView) (path : String) (size : Nat),
        v.pathExists = true →
        DeleteEngine.is_protected_path path = true →
        DeleteEngine.delete_single_file v path size =
          (Except.error "系统保护路径，禁止删除", [])) ∧
    (∀ (er eo : Bool) (c : Nat) (v : EnhFsView) (path : String),
        v.pathExists = true →
        EnhancedDeleteEngine.is_system_protected path = true →
        (EnhancedDeleteEngine.delete_single_file er eo c v path).1.failure_reason =
            some DeleteFailureReason.SystemProtected ∧
          (EnhancedDeleteEngine.delete_single_file er eo c v path).2 = []) := by
  constructor
  · intro v path size hex hprot
    simp [DeleteEngine.delete_single_file, hex, hprot]
  · intro er eo c v path hex hprot
    simp [EnhancedDeleteEngine.delete_single_file, hex, hprot]

/-- Claim C1, witness: the amended theorem applied to a
`c:\windows\system32` path for both engines. -/
theorem c1_amended_witness :
    DeleteEngine.delete_single_file ⟨true, false, true, false, "", true, true, true⟩
        "c:\\windows\\system32\\drivers\\old.sys" 9 =
      (Except.error "系统保护路径，禁止删除", []) ∧
    (EnhancedDeleteEngine.delete_single_file true true 4096
        ⟨true, false, 5, true, false, false, false, "", true⟩
        "c:\\windows\\system32\\ntdll.dll").2 = [] := by
  have h := c1_amended
  exact ⟨h.1 _ _ _ rfl (by decide), (h.2 true true 4096 _ _ rfl (by decide)).2⟩

/-- Claim C4: session accounting.  For `EnhancedDeleteEngine::delete_files`
the outcome list is exactly one per candidate; the success, failed and
reboot-pending counters are the counts of the three disjoint outcome
buckets and add up to the number of outcomes (there is no manual-review
bucket in this engine, i.e. it is 0); freed physical bytes are exactly the
sum of the physical sizes of the successful outcomes.  For
`PermanentDeleteEngine::delete_leftovers` the four counters (including
manual review) add up likewise and the freed bytes are the sum over the
successful outcomes. -/
theorem c4_session_accounting :
    (∀ (outcomeOf : String → FileDeleteResult) (paths : List String),
      (EnhancedDeleteEngine.delete_files outcomeOf paths).file_results =
          paths.map outcomeOf ∧
      (EnhancedDeleteEngine.delete_files outcomeOf paths).success_count +
          (EnhancedDeleteEngine.delete_files outcomeOf paths).failed_count +
          (EnhancedDeleteEngine.delete_files outcomeOf paths).reboot_pending_count =
        (EnhancedDeleteEngine.delete_files outcomeOf paths).file_results.length ∧
      (EnhancedDeleteEngine.delete_files outcomeOf paths).success_count =
        (EnhancedDeleteEngine.delete_files outcomeOf paths).file_results.countP
          isSuccessOutcome ∧
      (EnhancedDeleteEngine.delete_files outcomeOf paths).failed_count =
        (EnhancedDeleteEngine.delete_files outcomeOf paths).file_results.countP
          isFailedOutcome ∧
      (EnhancedDeleteEngine.delete_files outcomeOf paths).reboot_pending_count =
        (EnhancedDeleteEngine.delete_files outcomeOf paths).file_results.countP
          isRebootOutcome ∧
      (EnhancedDeleteEngine.delete_files outcomeOf paths).freed_physical_size =
        sumPhysSucc (EnhancedDeleteEngine.delete_files outcomeOf paths).file_results) ∧
    (∀ (erb : Bool) (safetyOf : String → SafetyCheckResult)
        (fsOf : String → PermFsView) (paths : List String),
      (PermanentDeleteEngine.delete_leftovers erb safetyOf fsOf paths).details.length =
          paths.length ∧
      (PermanentDeleteEngine.delete_leftovers erb safetyOf fsOf paths).success_count +
          (PermanentDeleteEngine.delete_leftovers erb safetyOf fsOf paths).failed_count +
          (PermanentDeleteEngine.delete_leftovers erb safetyOf fsOf paths).manual_review_count +
          (PermanentDeleteEngine.delete_leftovers erb safetyOf fsOf paths).reboot_pending_count =
        (PermanentDeleteEngine.delete_leftovers erb safetyOf fsOf paths).details.length ∧
      (PermanentDeleteEngine.delete_leftovers erb safetyOf fsOf paths).success_count =
        (PermanentDeleteEngine.delete_leftovers erb safetyOf fsOf paths).details.countP
          leftoverSucc ∧
      (PermanentDeleteEngine.delete_leftovers erb safetyOf fsOf paths).manual_review_count =
        (PermanentDeleteEngine.delete_leftovers erb safetyOf fsOf paths).details.countP
          leftoverManual ∧
      (PermanentDeleteEngine.delete_leftovers erb safetyOf fsOf paths).freed_size =
        sumFreedSucc (PermanentDeleteEngine.delete_leftovers erb safetyOf fsOf paths).details) := by
  constructor
  · intro outcomeOf paths
    have h := deleteFilesLoop_spec outcomeOf paths EnhancedDeleteResult.new
    rw [EnhancedDeleteEngine.delete_files]
    have h1 : (EnhancedDeleteEngine.deleteFilesLoop outcomeOf paths
        EnhancedDeleteResult.new).file_results = paths.map outcomeOf := by
      rw [h.1]; rfl
    have h2 : (EnhancedDeleteEngine.deleteFilesLoop outcomeOf paths
        EnhancedDeleteResult.new).success_count =
        (paths.map outcomeOf).countP isSuccessOutcome := by
      rw [h.2.1]; exact Nat.zero_add _
    have h3 : (EnhancedDeleteEngine.deleteFilesLoop outcomeOf paths
        EnhancedDeleteResult.new).failed_count =
        (paths.map outcomeOf).countP isFailedOutcome := by
      rw [h.2.2.1]; exact Nat.zero_add _
    have h4 : (EnhancedDeleteEngine.deleteFilesLoop outcomeOf paths
        EnhancedDeleteResult.new).reboot_pending_count =
        (paths.map outcomeOf).countP isRebootOutcome := by
      rw [h.2.2.2.1]; exact Nat.zero_add _
    have h5 : (EnhancedDeleteEngine.deleteFilesLoop outcomeOf paths
        EnhancedDeleteResult.new).freed_physical_size =
        sumPhysSucc (paths.map outcomeOf) := by
      rw [h.2.2.2.2.1]; exact Nat.zero_add _
    have hpart := outcome_buckets_partition (paths.map outcomeOf)
    refine ⟨h1, ?_, ?_, ?_, ?_, ?_⟩
    · rw [h1, h2, h3, h4]; exact hpart
    · rw [h1, h2]
    · rw [h1, h3]
    · rw [h1, h4]
    · rw [h1, h5]
  · intro erb safetyOf fsOf paths
    have h := deleteLeftoversLoop_spec erb safetyOf fsOf paths ⟨0, 0, 0, 0, 0, []⟩
    rw [PermanentDeleteEngine.delete_leftovers]
    have h1 : (PermanentDeleteEngine.deleteLeftoversLoop erb safetyOf fsOf paths
        ⟨0, 0, 0, 0, 0, []⟩).details =
        paths.map (PermanentDeleteEngine.processLeftover erb safetyOf fsOf) := by
      rw [h.1]; rfl
    have h2 : (PermanentDeleteEngine.deleteLeftoversLoop erb safetyOf fsOf paths
        ⟨0, 0, 0, 0, 0, []⟩).success_count =
        (paths.map (PermanentDeleteEngine.processLeftover erb safetyOf fsOf)).countP
          leftoverSucc := by
      rw [h.2.1]; exact Nat.zero_add _
    have h3 : (PermanentDeleteEngine.deleteLeftoversLoop erb safetyOf fsOf paths
        ⟨0, 0, 0, 0, 0, []⟩).failed_count =
        (paths.map (PermanentDeleteEngine.processLeftover erb safetyOf fsOf)).countP
          leftoverFailed := by
      rw [h.2.2.1]; exact Nat.zero_add _
    have h4 : (PermanentDeleteEngine.deleteLeftoversLoop erb safetyOf fsOf paths
        ⟨0, 0, 0, 0, 0, []⟩).manual_review_count =
        (paths.map (PermanentDeleteEngine.processLeftover erb safetyOf fsOf)).countP
          leftoverManual := by
      rw [h.2.2.2.1]; exact Nat.zero_add _
    have h5 : (PermanentDeleteEngine.deleteLeftoversLoop erb safetyOf fsOf paths
        ⟨0, 0, 0, 0, 0, []⟩).reboot_pending_count =
        (paths.map (PermanentDeleteEngine.processLeftover erb safetyOf fsOf)).countP
          leftoverReboot := by
      rw [h.2.2.2.2.1]; exact Nat.zero_add _
    have h6 : (PermanentDeleteEngine.deleteLeftoversLoop erb safetyOf fsOf paths
        ⟨0, 0, 0, 0, 0, []⟩).freed_size =
        sumFreedSucc (paths.map (PermanentDeleteEngine.processLeftover erb safetyOf fsOf)) := by
      rw [h.2.2.2.2.2]; exact Nat.zero_add _
    have hpart := leftover_buckets_partition
      (paths.map (PermanentDeleteEngine.processLeftover erb safetyOf fsOf))
    refine ⟨?_, ?_, ?_, ?_, ?_⟩
    · rw [h1, List.length_map]
    · rw [h1, h2, h3, h4, h5]; omega
    · rw [h1, h2]
    · rw [h1, h4]
    · rw [h1, h6]

/-- Claim C5, counterexample: the sub-tree entry
`C:\Users\alice\Desktop\scratch.txt` ends with none of the five
user-critical suffixes and indeed passes `DeleteEngine::is_protected_path`,
yet `PermanentDeleteEngine::check_protected_path` — the protected-path
layer of the permanent-delete safety predicate, cited by the claim —
rejects it, because that check matches `\desktop` by containment, not by
suffix. -/
theorem c5_counterexample :
    USER_CRITICAL_PATHS.any
        (fun s => strEndsWithB (lowerStr "C:\\Users\\alice\\Desktop\\scratch.txt") s)
      = false ∧
    DeleteEngine.is_protected_path "C:\\Users\\alice\\Desktop\\scratch.txt" = false ∧
    (PermanentDeleteEngine.check_protected_path
        "C:\\Users\\alice\\Desktop\\scratch.txt").isSome = true := by
  refine ⟨by decide, by decide, by decide⟩

/-- Claim C5, amended: in `DeleteEngine::is_protected_path` the
user-critical-root layer is a pure suffix test — any path whose lowercased
form ends with one of the five roots is rejected, `C:\Users\alice\Desktop`
is rejected and the sub-tree entry `C:\Users\alice\Desktop\scratch.txt` is
not.  In `PermanentDeleteEngine::check_protected_path`, by contrast, every
path merely containing `\desktop` is rejected, sub-tree entries
included. -/
theorem c5_amended :
    (∀ path : String,
        USER_CRITICAL_PATHS.any (fun s => strEndsWithB (lowerStr path) s) = true →
        DeleteEngine.is_protected_path path = true) ∧
    DeleteEngine.is_protected_path "C:\\Users\\alice\\Desktop" = true ∧
    DeleteEngine.is_protected_path "C:\\Users\\alice\\Desktop\\scratch.txt" = false ∧
    (∀ path : String,
        strContainsB (lowerStr path) "\\desktop" = true →
        (PermanentDeleteEngine.check_protected_path path).isSome = true) := by
  refine ⟨?_, by decide, by decide, ?_⟩
  · intro path h
    unfold DeleteEngine.is_protected_path
    simp only [Bool.or_eq_true]
    tauto
  · intro path h
    have hmem : "\\Desktop" ∈ PERM_PROTECTED_PATHS := by decide
    have hlow : lowerStr "\\Desktop" = "\\desktop" := by decide
    have hhit : (strStartsWithB (lowerStr path) (lowerStr "\\Desktop") ||
        strContainsB (lowerStr path) (lowerStr "\\Desktop")) = true := by
      rw [hlow, h, Bool.or_true]
    have hfind := findProtected_isSome (lowerStr path) PERM_PROTECTED_PATHS
      "\\Desktop" hmem hhit
    unfold PermanentDeleteEngine.check_protected_path
    obtain ⟨r, hr⟩ := Option.isSome_iff_exists.mp hfind
    rw [hr]
    rfl

/-- Claim C5, witness: the amended theorem applied at
`C:\Users\alice\Desktop` (suffix layer) and `C:\Users\bob\Desktop\notes.txt`
(containment in the permanent-delete check). -/
theorem c5_amended_witness :
    DeleteEngine.is_protected_path "C:\\Users\\alice\\Desktop" = true ∧
    (PermanentDeleteEngine.check_protected_path
        "C:\\Users\\bob\\Desktop\\notes.txt").isSome = true := by
  have h := c5_amended
  exact ⟨h.1 "C:\\Users\\alice\\Desktop" (by decide),
    h.2.2.2 "C:\\Users\\bob\\Desktop\\notes.txt" (by decide)⟩

/-- Claim C6, counterexample: `RegistryScanner::is_installed` — one of the
three implementations of the installed-app operation the claim covers —
only tests containment of an entry inside the token, so with index
`{"visual studio code"}` the token `"visual studio"` yields `false`,
contrary to the claim (and to the spec-worded operation, which yields
`true`). -/
theorem c6_counterexample :
    RegistryScanner.is_installed ["visual studio code"] "visual studio" = false ∧
    specIsInstalled ["visual studio code"] "visual studio" = true := by
  refine ⟨by decide, by decide⟩

/-- Claim C6, amended: `LeftoverScanner::is_installed` realises the claimed
operation exactly — true iff the lowercased token equals an entry, or token
and entry stand in a substring relation with both at least 4 characters
(so `"vscode"` misses and `"visual studio"` hits the index
`{"visual studio code"}`).  `RegistryScanner::is_installed` instead tests
only entry-inside-token containment (so `"visual studio"` misses), and
`PermanentDeleteEngine::check_registry_presence` requires both length
bounds even for equal strings (so the short equal pair `"qq"`/`"qq"`
misses). -/
theorem c6_amended :
    (∀ (apps : List String) (token : String),
        LeftoverScanner.is_installed apps token = specIsInstalled apps token) ∧
    LeftoverScanner.is_installed ["visual studio code"] "vscode" = false ∧
    LeftoverScanner.is_installed ["visual studio code"] "visual studio" = true ∧
    RegistryScanner.is_installed ["visual studio code"] "visual studio" = false ∧
    (PermanentDeleteEngine.check_registry_presence ["visual studio code"]
        "visual studio").isSome = true ∧
    PermanentDeleteEngine.check_registry_presence ["qq"] "qq" = none := by
  refine ⟨?_, by decide, by decide, by decide, by decide, by decide⟩
  intro apps token
  simp only [LeftoverScanner.is_installed, specIsInstalled]
  rw [List.contains_eq_any_beq]
  have hpt : (fun app => (decide (app.length > 3) &&
        strContainsB (lowerStr token) app) ||
      (decide ((lowerStr token).length > 3) && strContainsB app (lowerStr token))) =
      (fun e => (strContainsB (lowerStr token) e || strContainsB e (lowerStr token)) &&
        decide ((lowerStr token).length ≥ 4) && decide (e.length ≥ 4)) := by
    funext e
    exact inst_pointwise (lowerStr token) e
  rw [hpt]

/-- Claim C7, counterexample: `scan_mui_cache` applies no whitelist test,
and the fixed MUI-cache hive path it stamps on every emitted entry
contains the whitelist substring `microsoft` (also `windows`, `explorer`,
`currentversion`): a single orphaned value name produces an entry whose
lowercased key path matches the registry whitelist. -/
theorem c7_counterexample :
    RegistryScanner.scan_mui_cache
      ⟨fun mp => if mp = "Software\\Microsoft\\Windows\\CurrentVersion\\Explorer\\MuiCache"
          then ["C:\\gone\\app.exe.Friendly"] else [],
        [], fun _ => false, fun _ => false, fun _ => false, [], fun _ => none,
        fun _ => false⟩ =
      [⟨"HKEY_CURRENT_USER\\Software\\Microsoft\\Windows\\CurrentVersion\\Explorer\\MuiCache",
        "C:\\gone\\app.exe.Friendly", RegistryEntryType.MuiCache,
        some "C:\\gone\\app.exe", "可执行文件不存在: C:\\gone\\app.exe", 1⟩] ∧
    strContainsB
      (lowerStr "HKEY_CURRENT_USER\\Software\\Microsoft\\Windows\\CurrentVersion\\Explorer\\MuiCache")
      "microsoft" = true ∧
    "microsoft" ∈ REGISTRY_WHITELIST := by
  refine ⟨rfl, by decide, by decide⟩

/-- Claim C7, amended: the registry whitelist is applied to the key *name*,
not the full key path, and only in the software-key and application scans:
every emitted `SoftwareKey` or `ApplicationAssociation` entry has a
non-whitelisted name, while every `MuiCache` entry carries one of the two
fixed hive paths, whose lowercased form always contains the whitelist
substring `microsoft`. -/
theorem c7_amended :
    (∀ (apps : List String) (o : RegOracle) (e : RegistryEntry),
        e ∈ RegistryScanner.scan_software_keys apps o →
        RegistryScanner.is_key_whitelisted e.name = false ∧
        e.entry_type = RegistryEntryType.SoftwareKey) ∧
    (∀ (o : RegOracle) (e : RegistryEntry),
        e ∈ RegistryScanner.scan_applications o →
        RegistryScanner.is_key_whitelisted e.name = false ∧
        e.entry_type = RegistryEntryType.ApplicationAssociation) ∧
    (∀ (o : RegOracle) (e : RegistryEntry),
        e ∈ RegistryScanner.scan_mui_cache o →
        e.entry_type = RegistryEntryType.MuiCache ∧
        strContainsB (lowerStr e.path) "microsoft" = true) := by
  refine ⟨?_, ?_, ?_⟩
  · intro apps o e he
    simp only [RegistryScanner.scan_software_keys, List.mem_filterMap] at he
    obtain ⟨a, _, hfa⟩ := he
    by_cases h1 : RegistryScanner.is_key_whitelisted a = true
    · rw [if_pos h1] at hfa; exact absurd hfa (by simp)
    · rw [if_neg h1] at hfa
      by_cases h2 : RegistryScanner.is_installed apps a = true
      · rw [if_pos h2] at hfa; exact absurd hfa (by simp)
      · rw [if_neg h2] at hfa
        by_cases h3 : (o.openOk a && (o.hasSubkeys a || o.hasValues a)) = true
        · rw [if_pos h3] at hfa
          obtain rfl := Option.some.inj hfa
          exact ⟨Bool.not_eq_true _ ▸ Bool.of_not_eq_true h1, rfl⟩
        · rw [if_neg h3] at hfa; exact absurd hfa (by simp)
  · intro o e he
    simp only [RegistryScanner.scan_applications, List.mem_filterMap] at he
    obtain ⟨a, _, hfa⟩ := he
    by_cases h1 : RegistryScanner.is_key_whitelisted a = true
    · rw [if_pos h1] at hfa; exact absurd hfa (by simp)
    · rw [if_neg h1] at hfa
      rcases hcmd : o.commandOf a with _ | command
      · simp only [hcmd] at hfa; exact absurd hfa (by simp)
      · simp only [hcmd] at hfa
        rcases hexe : RegistryScanner.extract_exe_from_command command with _ | exe
        · simp only [hexe] at hfa; exact absurd hfa (by simp)
        · simp only [hexe] at hfa
          by_cases hdisk : o.diskExists exe = true
          · rw [if_pos hdisk] at hfa; exact absurd hfa (by simp)
          · rw [if_neg hdisk] at hfa
            obtain rfl := Option.some.inj hfa
            exact ⟨Bool.not_eq_true _ ▸ Bool.of_not_eq_true h1, rfl⟩
  · intro o e he
    simp only [RegistryScanner.scan_mui_cache, List.mem_flatMap,
      List.mem_filterMap] at he
    obtain ⟨mp, hmp, nm, _, hfa⟩ := he
    rcases hext : RegistryScanner.extract_exe_path_from_mui nm with _ | p
    · simp only [hext] at hfa; exact absurd hfa (by simp)
    · simp only [hext] at hfa
      by_cases hdisk : o.diskExists p = true
      · rw [if_pos hdisk] at hfa; exact absurd hfa (by simp)
      · rw [if_neg hdisk] at hfa
        obtain rfl := Option.some.inj hfa
        refine ⟨rfl, ?_⟩
        have hcase :
            mp = "Software\\Microsoft\\Windows\\CurrentVersion\\Explorer\\MuiCache" ∨
            mp = "Software\\Classes\\Local Settings\\Software\\Microsoft\\Windows\\Shell\\MuiCache" := by
          simpa [MUI_PATHS] using hmp
        rcases hcase with rfl | rfl
        · exact (by decide : strContainsB
            (lowerStr ("HKEY_CURRENT_USER\\" ++
              "Software\\Microsoft\\Windows\\CurrentVersion\\Explorer\\MuiCache"))
            "microsoft" = true)
        · exact (by decide : strContainsB
            (lowerStr ("HKEY_CURRENT_USER\\" ++
              "Software\\Classes\\Local Settings\\Software\\Microsoft\\Windows\\Shell\\MuiCache"))
            "microsoft" = true)

/-- Claim C7, witness: the amended theorem applied to a one-entry oracle
for each scan kind. -/
theorem c7_amended_witness :
    RegistryScanner.is_key_whitelisted "SomeOldApp" = false ∧
    RegistryScanner.is_key_whitelisted "MyTool.exe" = false ∧
    strContainsB
      (lowerStr "HKEY_CURRENT_USER\\Software\\Microsoft\\Windows\\CurrentVersion\\Explorer\\MuiCache")
      "microsoft" = true := by
  have h := c7_amended
  refine ⟨(h.1 []
      ⟨fun _ => [], ["SomeOldApp"], fun _ => true, fun _ => false, fun _ => true,
        [], fun _ => none, fun _ => false⟩
      ⟨"HKEY_CURRENT_USER\\Software\\SomeOldApp", "SomeOldApp",
        RegistryEntryType.SoftwareKey, none,
        "软件 SomeOldApp 可能已卸载，但配置仍保留", 3⟩ (by decide)).1,
    (h.2.1
      ⟨fun _ => [], [], fun _ => true, fun _ => false, fun _ => true,
        ["MyTool.exe"], fun _ => some "\"C:\\old\\mytool.exe\" %1", fun _ => false⟩
      ⟨"HKEY_CLASSES_ROOT\\Applications\\MyTool.exe", "MyTool.exe",
        RegistryEntryType.ApplicationAssociation, some "C:\\old\\mytool.exe",
        "关联的可执行文件不存在: C:\\old\\mytool.exe", 3⟩ (by decide)).1,
    (h.2.2
      ⟨fun mp => if mp = "Software\\Microsoft\\Windows\\CurrentVersion\\Explorer\\MuiCache"
          then ["C:\\gone\\app.exe.Friendly"] else [],
        [], fun _ => false, fun _ => false, fun _ => false, [], fun _ => none,
        fun _ => false⟩
      ⟨"HKEY_CURRENT_USER\\Software\\Microsoft\\Windows\\CurrentVersion\\Explorer\\MuiCache",
        "C:\\gone\\app.exe.Friendly", RegistryEntryType.MuiCache,
        some "C:\\gone\\app.exe", "可执行文件不存在: C:\\gone\\app.exe", 1⟩
      (by decide)).2⟩

/-- Claim C8, counterexample: on the value name `C:\a.dll.b.exe`, where the
first `.dll` occurrence precedes the first `.exe` occurrence, the code cuts
at the `.exe` occurrence (it tries `.exe` first and only falls back to
`.dll`), while the specified extraction — cut at the first occurrence of
`.exe` or `.dll` — yields the shorter `.dll` prefix. -/
theorem c8_counterexample :
    RegistryScanner.extract_exe_path_from_mui "C:\\a.dll.b.exe" =
      some "C:\\a.dll.b.exe" ∧
    specExtractMui "C:\\a.dll.b.exe" = some "C:\\a.dll" ∧
    RegistryScanner.extract_exe_path_from_mui "C:\\a.dll.b.exe" ≠
      specExtractMui "C:\\a.dll.b.exe" := by
  refine ⟨by decide, by decide, by decide⟩

/-- Claim C8, amended: the extraction strips every leading `@` and prefers
`.exe`: it cuts at the first `.exe` occurrence whenever that prefix passes
the drive-letter test, and only otherwise cuts at the first `.dll`
occurrence; a `MuiCache` orphan with risk 1 is emitted exactly for the
value names whose extracted path fails the on-disk existence check. -/
theorem c8_amended :
    (∀ (o : RegOracle) (e : RegistryEntry),
        e ∈ RegistryScanner.scan_mui_cache o →
        e.entry_type = RegistryEntryType.MuiCache ∧ e.risk_level = 1 ∧
        ∃ p, e.associated_path = some p ∧
          RegistryScanner.extract_exe_path_from_mui e.name = some p ∧
          o.diskExists p = false) ∧
    (∀ (o : RegOracle) (mp nm p : String),
        mp ∈ MUI_PATHS → nm ∈ o.valuesOf mp →
        RegistryScanner.extract_exe_path_from_mui nm = some p →
        o.diskExists p = false →
        (⟨"HKEY_CURRENT_USER\\" ++ mp, nm, RegistryEntryType.MuiCache, some p,
          "可执行文件不存在: " ++ p, 1⟩ : RegistryEntry) ∈
          RegistryScanner.scan_mui_cache o) ∧
    RegistryScanner.extract_exe_path_from_mui "@@C:\\x.exe,-101" = some "C:\\x.exe" ∧
    RegistryScanner.extract_exe_path_from_mui "C:\\a.dll.b.exe" =
      some "C:\\a.dll.b.exe" ∧
    RegistryScanner.extract_exe_path_from_mui "notepad.exe.Friendly" = none := by
  refine ⟨?_, ?_, by decide, by decide, by decide⟩
  · intro o e he
    simp only [RegistryScanner.scan_mui_cache, List.mem_flatMap,
      List.mem_filterMap] at he
    obtain ⟨mp, _, nm, _, hfa⟩ := he
    rcases hext : RegistryScanner.extract_exe_path_from_mui nm with _ | p
    · simp only [hext] at hfa; exact absurd hfa (by simp)
    · simp only [hext] at hfa
      by_cases hdisk : o.diskExists p = true
      · rw [if_pos hdisk] at hfa; exact absurd hfa (by simp)
      · rw [if_neg hdisk] at hfa
        obtain rfl := Option.some.inj hfa
        exact ⟨rfl, rfl, p, rfl, hext, Bool.not_eq_true _ ▸ Bool.of_not_eq_true hdisk⟩
  · intro o mp nm p hmp hnm hext hdisk
    simp only [RegistryScanner.scan_mui_cache, List.mem_flatMap, List.mem_filterMap]
    refine ⟨mp, hmp, nm, hnm, ?_⟩
    simp only [hext, hdisk]
    rfl

/-- Claim C9: every entry emitted by `LeftoverScanner::scan` passed the
freshness gate — its recorded age strictly exceeds
`min_days_old * 24 * 60 * 60` seconds (hence is at least the threshold) —
and the size gate: its recursive size, which is exactly what the entry
reports, is at least `min_size_threshold` (1 MiB by default, with 30 days
as the default freshness bound in `LeftoverScanner::new`). -/
theorem c9_leftover_thresholds (cfg : LeftoverScannerCfg) (o : LeftoverFsOracle)
    (scan_paths : List (String × LeftoverSource)) (e : LeftoverEntry)
    (he : e ∈ (LeftoverScanner.scan cfg o scan_paths).leftovers) :
    cfg.min_size_threshold ≤ e.size ∧
    (∃ a, o.ageSecs e.path = some a ∧ cfg.min_days_old * 24 * 60 * 60 < a) ∧
    e.size = (o.folderSize e.path).1 := by
  simp only [LeftoverScanner.scan, List.mem_mergeSort, List.mem_flatMap] at he
  obtain ⟨bs, _, hroot⟩ := he
  simp only [LeftoverScanner.scanRoot] at hroot
  by_cases hre : o.rootExists bs.1 = false
  · rw [if_pos hre] at hroot; simp at hroot
  · rw [if_neg hre] at hroot
    rw [List.mem_filterMap] at hroot
    obtain ⟨path, _, hfa⟩ := hroot
    simp only [LeftoverScanner.scanEntry] at hfa
    by_cases hdir : o.isDir path = false
    · rw [if_pos hdir] at hfa; exact absurd hfa (by simp)
    · rw [if_neg hdir] at hfa
      rcases hname : fileNameOf path with _ | folder_name
      · simp only [hname] at hfa; exact absurd hfa (by simp)
      · simp only [hname] at hfa
        by_cases hwl : LeftoverScanner.is_whitelisted folder_name = true
        · rw [if_pos hwl] at hfa; exact absurd hfa (by simp)
        · rw [if_neg hwl] at hfa
          by_cases hinst : LeftoverScanner.is_installed cfg.installed_apps folder_name = true
          · rw [if_pos hinst] at hfa; exact absurd hfa (by simp)
          · rw [if_neg hinst] at hfa
            by_cases hold : LeftoverScanner.is_old_enough cfg o path = false
            · rw [if_pos hold] at hfa; exact absurd hfa (by simp)
            · rw [if_neg hold] at hfa
              by_cases hsz : (o.folderSize path).1 < cfg.min_size_threshold
              · rw [if_pos hsz] at hfa; exact absurd hfa (by simp)
              · rw [if_neg hsz] at hfa
                obtain rfl := Option.some.inj hfa
                refine ⟨Nat.le_of_not_lt hsz, ?_, rfl⟩
                have holdT : LeftoverScanner.is_old_enough cfg o path = true :=
                  Bool.of_not_eq_false hold
                simp only [LeftoverScanner.is_old_enough] at holdT
                rcases hage : o.ageSecs path with _ | a
                · rw [hage] at holdT; exact absurd holdT (by simp)
                · rw [hage] at holdT
                  simp only [decide_eq_true_eq] at holdT
                  exact ⟨a, rfl, holdT⟩

/-- Claim C9, witness: the theorem applied to a scanner with the default
thresholds and a one-directory oracle. -/
theorem c9_leftover_thresholds_witness :
    (1048576 : Nat) ≤ 2097152 ∧
    (∃ a, (some 2592001 : Option Nat) = some a ∧ 30 * 24 * 60 * 60 < a) ∧
    (2097152 : Nat) = 2097152 := by
  exact c9_leftover_thresholds
    ⟨[], 1048576, 30⟩
    ⟨fun _ => true, fun _ => ["C:\\ProgramData\\OldApp"], fun _ => true,
      fun _ => some 2592001, fun _ => (2097152, 10), fun _ => 0⟩
    [("C:\\ProgramData", LeftoverSource.ProgramData)]
    ⟨"C:\\ProgramData\\OldApp", 2097152, "OldApp", LeftoverSource.ProgramData, 0, 10⟩
    (List.mem_mergeSort.mpr (by decide))

/-- Claim C10: `EnhancedDeleteEngine::delete_single_file` marks a candidate
for reboot-time removal only inside the safe-ownership scope: for any path
whose lowercased form contains none of the `SAFE_OWNERSHIP_PATHS`
substrings, the outcome never has `marked_for_reboot` and never carries
`MarkedForReboot`; a locked candidate outside that scope (exists, not
system-protected, all removal tiers failed, error text signalling a lock,
reboot handling enabled) is classified `FileLocked` instead. -/
theorem c10_reboot_only_in_safe_scope :
    (∀ (er eo : Bool) (c : Nat) (v : EnhFsView) (path : String),
        EnhancedDeleteEngine.is_safe_for_ownership path = false →
        (EnhancedDeleteEngine.delete_single_file er eo c v path).1.marked_for_reboot
            = false ∧
          (EnhancedDeleteEngine.delete_single_file er eo c v path).1.failure_reason ≠
            some DeleteFailureReason.MarkedForReboot) ∧
    (∀ (eo : Bool) (c : Nat) (v : EnhFsView) (path : String),
        EnhancedDeleteEngine.is_safe_for_ownership path = false →
        v.pathExists = true →
        EnhancedDeleteEngine.is_system_protected path = false →
        v.directOk = false →
        (v.attrsOk && v.directAfterAttrsOk) = false →
        EnhancedDeleteEngine.isLockedErr v.lockedErrMsg = true →
        (EnhancedDeleteEngine.delete_single_file true eo c v path).1.failure_reason =
          some DeleteFailureReason.FileLocked) := by
  constructor
  · intro er eo c v path hsafe
    simp only [EnhancedDeleteEngine.delete_single_file]
    by_cases hex : v.pathExists = false
    · simp [hex]
    · simp only [hex, if_false, Bool.false_eq_true]
      by_cases hprot : EnhancedDeleteEngine.is_system_protected path = true
      · simp [hprot]
      · simp only [hprot, if_false, Bool.not_eq_true _ ▸ hprot]
        rcases htd : EnhancedDeleteEngine.try_delete eo v path with ⟨err, evts⟩
        rcases err with _ | e
        · simp
        · simp only []
          by_cases hlock : (EnhancedDeleteEngine.isLockedErr e && er) = true
          · simp only [hlock, if_true, hsafe, Bool.false_and, Bool.false_eq_true,
              if_false]
            simp
          · simp only [hlock, if_false]
            by_cases hperm : (strContainsB e "权限" || strContainsB e "permission") = true
            · simp [hperm]
            · simp [hperm]
  · intro eo c v path hsafe hex hprot hdirect hattrs hlocked
    simp only [EnhancedDeleteEngine.delete_single_file, hex]
    simp only [EnhancedDeleteEngine.try_delete, hdirect, hattrs, hsafe,
      Bool.and_false, Bool.false_and, hprot]
    simp [hlocked, hsafe]

/-- Claim C10, witness: the theorem applied to a locked file outside the
safe-ownership scope. -/
theorem c10_reboot_only_in_safe_scope_witness :
    (EnhancedDeleteEngine.delete_single_file true true 4096
        ⟨true, false, 5, false, false, false, false, "文件被锁定或正在使用", true⟩
        "c:\\users\\alice\\docs\\report.bin").1.marked_for_reboot = false ∧
    (EnhancedDeleteEngine.delete_single_file true true 4096
        ⟨true, false, 5, false, false, false, false, "文件被锁定或正在使用", true⟩
        "c:\\users\\alice\\docs\\report.bin").1.failure_reason =
      some DeleteFailureReason.FileLocked := by
  have h := c10_reboot_only_in_safe_scope
  exact ⟨(h.1 true true 4096 _ _ (by decide)).1,
    h.2 true 4096 _ _ (by decide) rfl (by decide) rfl rfl (by decide)⟩

/-- Claim C8, witness: the amended theorem's emission characterisation
applied to a one-value oracle. -/
theorem c8_amended_witness :
    (⟨"HKEY_CURRENT_USER\\" ++ "Software\\Microsoft\\Windows\\CurrentVersion\\Explorer\\MuiCache",
      "C:\\gone\\app.exe.Friendly", RegistryEntryType.MuiCache,
      some "C:\\gone\\app.exe", "可执行文件不存在: " ++ "C:\\gone\\app.exe", 1⟩ :
        RegistryEntry) ∈
      RegistryScanner.scan_mui_cache
        ⟨fun mp => if mp = "Software\\Microsoft\\Windows\\CurrentVersion\\Explorer\\MuiCache"
            then ["C:\\gone\\app.exe.Friendly"] else [],
          [], fun _ => false, fun _ => false, fun _ => false, [], fun _ => none,
          fun _ => false⟩ := by
  exact c8_amended.2.1
    ⟨fun mp => if mp = "Software\\Microsoft\\Windows\\CurrentVersion\\Explorer\\MuiCache"
        then ["C:\\gone\\app.exe.Friendly"] else [],
      [], fun _ => false, fun _ => false, fun _ => false, [], fun _ => none,
      fun _ => false⟩
    "Software\\Microsoft\\Windows\\CurrentVersion\\Explorer\\MuiCache"
    "C:\\gone\\app.exe.Friendly" "C:\\gone\\app.exe"
    (by decide) (by decide) (by decide) rfl
